import Mathlib

/-!
Flocking simulation: embedding of `simulation.h` / `simulation.cpp`.

The engine implements the three-term flocking force model (alpha, beta, gamma)
with a semi-implicit integrator.  The C++ type `double` is idealised as `ℝ`
(`std::sqrt` is `Real.sqrt`, `std::cos` is `Real.cos`, `M_PI` is `Real.pi`,
`std::abs` is the absolute value), so every statement below is about the exact
real-number semantics of the source expressions; rounding is not modelled.

Stateful code is embedded by explicit state passing: `FlockSimulation` is the
record of the class's data members and every member function that mutates the
object returns the new record.  A `const Agent&` argument that the source
compares by address (`&agent == &other`) is passed as the agent together with
its index in the agent vector.
-/

noncomputable section

/-! ## Data model (`simulation.h`) -/

/-- Two-dimensional vector of the source (`struct Vector2`). -/
@[ext]
structure Vector2 where
  x : ℝ
  y : ℝ

namespace Vector2

/-- Source `operator+`. -/
def add (a other : Vector2) : Vector2 := ⟨a.x + other.x, a.y + other.y⟩

/-- Source `operator-`. -/
def sub (a other : Vector2) : Vector2 := ⟨a.x - other.x, a.y - other.y⟩

/-- Source `operator*(double)`. -/
def mul (a : Vector2) (scalar : ℝ) : Vector2 := ⟨a.x * scalar, a.y * scalar⟩

/-- Source `dot`. -/
def dot (a other : Vector2) : ℝ := a.x * other.x + a.y * other.y

/-- Source `length`. -/
def length (a : Vector2) : ℝ := Real.sqrt (a.x * a.x + a.y * a.y)

/-- Source `normalized`: the zero vector below the `1e-10` guard. -/
def normalized (a : Vector2) : Vector2 :=
  let len := a.length
  if len < 1e-10 then ⟨0, 0⟩ else ⟨a.x / len, a.y / len⟩

instance : Add Vector2 := ⟨Vector2.add⟩

instance : Sub Vector2 := ⟨Vector2.sub⟩

instance : HMul Vector2 ℝ Vector2 := ⟨Vector2.mul⟩

end Vector2

/-- Alpha agent (`struct Agent`). -/
structure Agent where
  position : Vector2
  velocity : Vector2
  acceleration : Vector2

/-- Virtual (beta) agent (`struct BetaAgent`). -/
structure BetaAgent where
  position : Vector2
  velocity : Vector2

/-- Physical obstacle (`struct Obstacle`). -/
structure Obstacle where
  position : Vector2
  radius : ℝ
  is_wall : Bool
  wall_normal : Vector2

/-- Configuration record (`FlockSimulation::Parameters`) with the source defaults. -/
structure Parameters where
  desired_distance : ℝ := 7
  interaction_range : ℝ := 8.4
  obstacle_range : ℝ := 5.2
  c1_alpha : ℝ := 8
  c2_alpha : ℝ := 6
  c1_beta : ℝ := 5
  c2_beta : ℝ := 2
  c1_gamma : ℝ := 0.5
  c2_gamma : ℝ := 0.8
  epsilon : ℝ := 0.1
  h_alpha : ℝ := 0.2
  h_beta : ℝ := 0.8

/-- The parameter record every simulation instance is built with. -/
def default_params : Parameters := {}

/-- Data members of `class FlockSimulation` (the mutex is not state). -/
structure FlockSimulation where
  agents : List Agent
  obstacles : List Obstacle
  beta_agents : List BetaAgent
  gamma_target : Vector2
  gamma_velocity : Vector2
  running : Bool
  show_beta_agents : Bool
  use_gamma_target : Bool
  show_connections : Bool
  params : Parameters

/-! ## Smoothing functions -/

/-- Source `sigma_norm` (equation (8)). -/
def sigma_norm (p : Parameters) (z : Vector2) : ℝ :=
  let norm_z := z.length
  (1 / p.epsilon) * (Real.sqrt (1 + p.epsilon * norm_z * norm_z) - 1)

/-- Source `sigma_epsilon` (equation (9)). -/
def sigma_epsilon (p : Parameters) (z : Vector2) : Vector2 :=
  let norm_z := z.length
  if norm_z < 1e-10 then ⟨0, 0⟩
  else z * (1 / Real.sqrt (1 + p.epsilon * norm_z * norm_z))

/-- Source `bump_function` (equation (10)). -/
def bump_function (z h : ℝ) : ℝ :=
  if z < h then 1
  else if z < 1 then 0.5 * (1 + Real.cos (Real.pi * (z - h) / (1 - h)))
  else 0

/-! ## Adjacency and action functions -/

/-- Source `alpha_adjacency`. -/
def alpha_adjacency (p : Parameters) (q_i q_j : Vector2) : ℝ :=
  let distance := sigma_norm p (q_j - q_i)
  let r_alpha := sigma_norm p ⟨p.interaction_range, 0⟩
  bump_function (distance / r_alpha) p.h_alpha

/-- Source `beta_adjacency`. -/
def beta_adjacency (p : Parameters) (q_i obstacle_pos : Vector2) : ℝ :=
  let distance := sigma_norm p (obstacle_pos - q_i)
  let d_beta := sigma_norm p ⟨p.desired_distance * 0.6, 0⟩
  bump_function (distance / d_beta) p.h_beta

/-- Source `phi_alpha` (equation (15), simplified as in the source). -/
def phi_alpha (p : Parameters) (z : ℝ) : ℝ :=
  let d_alpha := sigma_norm p ⟨p.desired_distance, 0⟩
  let r_alpha := sigma_norm p ⟨p.interaction_range, 0⟩
  let bump := bump_function (z / r_alpha) p.h_alpha
  let action := (z - d_alpha) / Real.sqrt (1 + (z - d_alpha) * (z - d_alpha))
  bump * action

/-- Source `phi_beta` (equation (65)). -/
def phi_beta (p : Parameters) (z : ℝ) : ℝ :=
  let d_beta := sigma_norm p ⟨p.desired_distance * 0.6, 0⟩
  let bump := bump_function (z / d_beta) p.h_beta
  let s := z - d_beta
  let sigma1 := s / Real.sqrt (1 + s * s)
  let action := sigma1 - 1
  bump * action

/-! ## Obstacle projection -/

/-- Source `project_to_obstacle`. -/
def project_to_obstacle (agent : Agent) (obstacle : Obstacle) : BetaAgent :=
  if obstacle.is_wall then
    if |obstacle.position.x - agent.position.x| < |obstacle.position.y - agent.position.y| then
      { position := ⟨agent.position.x, obstacle.position.y⟩
        velocity := ⟨agent.velocity.x, 0⟩ }
    else
      { position := ⟨obstacle.position.x, agent.position.y⟩
        velocity := ⟨0, agent.velocity.y⟩ }
  else
    let to_center := obstacle.position - agent.position
    let distance_to_center := to_center.length
    let mu := obstacle.radius / distance_to_center
    if distance_to_center > 0.1 then
      let direction := to_center.normalized
      { position := obstacle.position - direction * obstacle.radius
        velocity := (agent.velocity - direction * agent.velocity.dot direction) * mu }
    else
      { position := obstacle.position + ⟨obstacle.radius, 0⟩
        velocity := ⟨0, 0⟩ }

/-- Inner loop of `update_beta_agents`: the obstacles scanned for one agent,
each in-range obstacle pushing one virtual agent onto the back of the list. -/
def beta_scan (p : Parameters) (agent : Agent) (acc : List BetaAgent) :
    List Obstacle → List BetaAgent
  | [] => acc
  | obstacle :: rest =>
    let to_obstacle := obstacle.position - agent.position
    let distance := to_obstacle.length
    if distance < p.obstacle_range + obstacle.radius then
      beta_scan p agent (acc ++ [project_to_obstacle agent obstacle]) rest
    else
      beta_scan p agent acc rest

/-- Outer loop of `update_beta_agents` over the agents. -/
def beta_collect (p : Parameters) (obstacles : List Obstacle) (acc : List BetaAgent) :
    List Agent → List BetaAgent
  | [] => acc
  | agent :: rest => beta_collect p obstacles (beta_scan p agent acc obstacles) rest

/-- Source `update_beta_agents`: clear the list, then rebuild it. -/
def update_beta_agents (s : FlockSimulation) : FlockSimulation :=
  { s with beta_agents := beta_collect s.params s.obstacles [] s.agents }

/-! ## Force assembly -/

/-- Loop of `compute_alpha_force`: `others` is the rest of the agent vector,
`j` the index of its head, `i` the index of `agent` itself (the source skips
`&agent == &other`); the accumulator holds `gradient_force` and
`consensus_force`. -/
def alpha_loop (p : Parameters) (i : ℕ) (agent : Agent) :
    List Agent → ℕ → Vector2 × Vector2 → Vector2 × Vector2
  | [], _, acc => acc
  | other :: rest, j, acc =>
    if j = i then alpha_loop p i agent rest (j + 1) acc
    else
      let diff := other.position - agent.position
      let distance := diff.length
      if distance < p.interaction_range ∧ distance > 0.1 then
        let z := sigma_norm p diff
        let n_ij := sigma_epsilon p diff
        let a_ij := alpha_adjacency p agent.position other.position
        alpha_loop p i agent rest (j + 1)
          (acc.1 + n_ij * phi_alpha p z, acc.2 + (other.velocity - agent.velocity) * a_ij)
      else alpha_loop p i agent rest (j + 1) acc

/-- Source `compute_alpha_force` for the agent stored at index `i` of `agents`. -/
def compute_alpha_force (p : Parameters) (agents : List Agent) (i : ℕ) (agent : Agent) :
    Vector2 :=
  let r := alpha_loop p i agent agents 0 (⟨0, 0⟩, ⟨0, 0⟩)
  r.1 * p.c1_alpha + r.2 * p.c2_alpha

/-- Loop of `compute_beta_force`; the accumulator holds `repulsion_force` and
`damping_force`. -/
def beta_loop (p : Parameters) (agent : Agent) :
    List BetaAgent → Vector2 × Vector2 → Vector2 × Vector2
  | [], acc => acc
  | beta_agent :: rest, acc =>
    let diff := beta_agent.position - agent.position
    let distance := diff.length
    if distance < p.obstacle_range ∧ distance > 0.1 then
      let z := sigma_norm p diff
      let n_ik := sigma_epsilon p diff
      let b_ik := beta_adjacency p agent.position beta_agent.position
      beta_loop p agent rest
        (acc.1 + n_ik * phi_beta p z, acc.2 + (beta_agent.velocity - agent.velocity) * b_ik)
    else beta_loop p agent rest acc

/-- Source `compute_beta_force`. -/
def compute_beta_force (p : Parameters) (beta_agents : List BetaAgent) (agent : Agent) :
    Vector2 :=
  let r := beta_loop p agent beta_agents (⟨0, 0⟩, ⟨0, 0⟩)
  r.1 * p.c1_beta + r.2 * p.c2_beta

/-- Source `compute_gamma_force`. -/
def compute_gamma_force (s : FlockSimulation) (agent : Agent) : Vector2 :=
  if s.use_gamma_target = false then ⟨0, 0⟩
  else
    let diff := agent.position - s.gamma_target
    let norm_diff := diff.length
    let position_term : Vector2 :=
      if norm_diff < 1e-10 then ⟨0, 0⟩
      else diff * (1 / Real.sqrt (1 + norm_diff * norm_diff))
    let velocity_term := agent.velocity - s.gamma_velocity
    position_term * (-s.params.c1_gamma) - velocity_term * s.params.c2_gamma

/-! ## Step -/

/-- First loop of `step`: the accelerations are overwritten in place, agent by
agent.  `done` are the agents already rewritten, the second list the agents
still to visit; the forces of the visited agent are computed against the
vector as it stands at that moment. -/
def accel_loop (s : FlockSimulation) : List Agent → List Agent → List Agent
  | done, [] => done
  | done, agent :: rest =>
    let current := done ++ agent :: rest
    let alpha_force := compute_alpha_force s.params current done.length agent
    let beta_force := compute_beta_force s.params s.beta_agents agent
    let gamma_force := compute_gamma_force s agent
    accel_loop s
      (done ++ [{ agent with acceleration := alpha_force + beta_force + gamma_force }]) rest

/-- Velocity of an agent after the velocity integration and the speed clamp of
the second loop of `step` (before the position update). -/
def clamped_velocity (delta_time : ℝ) (agent : Agent) : Vector2 :=
  let velocity := agent.velocity + agent.acceleration * delta_time
  let speed := velocity.length
  let max_speed : ℝ := 100
  if speed > max_speed then velocity.normalized * max_speed else velocity

/-- Body of the second loop of `step`: integration of one agent. -/
def integrate (delta_time : ℝ) (agent : Agent) : Agent :=
  let velocity := clamped_velocity delta_time agent
  let position := agent.position + velocity * delta_time
  let boundary : ℝ := 200
  let soft_boundary : ℝ := 180
  let vx :=
    if |position.x| > soft_boundary then
      let push := (boundary - |position.x|) / (boundary - soft_boundary)
      velocity.x + (if position.x > 0 then -1 else 1) * push * 5
    else velocity.x
  let vy :=
    if |position.y| > soft_boundary then
      let push := (boundary - |position.y|) / (boundary - soft_boundary)
      velocity.y + (if position.y > 0 then -1 else 1) * push * 5
    else velocity.y
  { position := position, velocity := ⟨vx, vy⟩, acceleration := agent.acceleration }

/-- Source `step`. -/
def step (s : FlockSimulation) (delta_time : ℝ) : FlockSimulation :=
  let s1 := update_beta_agents s
  let s2 := { s1 with agents := accel_loop s1 [] s1.agents }
  { s2 with agents := s2.agents.map (integrate delta_time) }

/-! ## Commands -/

/-- Source `add_obstacle` (console output not modelled). -/
def add_obstacle (s : FlockSimulation) (position : Vector2) (radius : ℝ) : FlockSimulation :=
  { s with obstacles := s.obstacles ++ [⟨position, radius, false, ⟨0, 0⟩⟩] }

/-- Source `set_target` (console output not modelled). -/
def set_target (s : FlockSimulation) (target : Vector2) : FlockSimulation :=
  { s with gamma_target := target, use_gamma_target := true }

/-- Source `clear_obstacles` (console output not modelled). -/
def clear_obstacles (s : FlockSimulation) : FlockSimulation :=
  { s with obstacles := [], beta_agents := [] }

/-- Source `toggle_beta_display`. -/
def toggle_beta_display (s : FlockSimulation) : FlockSimulation :=
  { s with show_beta_agents := !s.show_beta_agents }

/-- Source `remove_target`. -/
def remove_target (s : FlockSimulation) : FlockSimulation :=
  { s with use_gamma_target := false }

/-- Source `enable_target`. -/
def enable_target (s : FlockSimulation) : FlockSimulation :=
  { s with use_gamma_target := true }

/-- Source `toggle_connections`. -/
def toggle_connections (s : FlockSimulation) : FlockSimulation :=
  { s with show_connections := !s.show_connections }

/-- Source `start`. -/
def start (s : FlockSimulation) : FlockSimulation :=
  { s with running := true }

/-- Source `stop`. -/
def stop (s : FlockSimulation) : FlockSimulation :=
  { s with running := false }

/-- States the constructor `FlockSimulation()` can produce.  The random
generator is modelled as a free choice: 1000 agents, each coordinate drawn from
`[-150, 150)`, each velocity component being such a draw times `0.05`, zero
acceleration; no obstacles, no virtual agents, target `(100, 100)` with zero
velocity, navigation enabled, display flags off, not running, source
parameters. -/
def constructed (s : FlockSimulation) : Prop :=
  s.agents.length = 1000
    ∧ (∀ a ∈ s.agents,
        (-150 ≤ a.position.x ∧ a.position.x < 150)
          ∧ (-150 ≤ a.position.y ∧ a.position.y < 150)
          ∧ (∃ d : ℝ, -150 ≤ d ∧ d < 150 ∧ a.velocity.x = d * 0.05)
          ∧ (∃ d : ℝ, -150 ≤ d ∧ d < 150 ∧ a.velocity.y = d * 0.05)
          ∧ a.acceleration = ⟨0, 0⟩)
    ∧ s.obstacles = []
    ∧ s.beta_agents = []
    ∧ s.gamma_target = ⟨100, 100⟩
    ∧ s.gamma_velocity = ⟨0, 0⟩
    ∧ s.running = false
    ∧ s.show_beta_agents = false
    ∧ s.use_gamma_target = true
    ∧ s.show_connections = false
    ∧ s.params = default_params

/-- States reachable from a freshly constructed simulation through the public
member functions of the class. -/
inductive Reachable : FlockSimulation → Prop
  | fresh (s : FlockSimulation) : constructed s → Reachable s
  | step (s : FlockSimulation) (delta_time : ℝ) : Reachable s → Reachable (step s delta_time)
  | add_obstacle (s : FlockSimulation) (position : Vector2) (radius : ℝ) :
      Reachable s → Reachable (add_obstacle s position radius)
  | set_target (s : FlockSimulation) (target : Vector2) :
      Reachable s → Reachable (set_target s target)
  | clear_obstacles (s : FlockSimulation) : Reachable s → Reachable (clear_obstacles s)
  | toggle_beta_display (s : FlockSimulation) :
      Reachable s → Reachable (toggle_beta_display s)
  | remove_target (s : FlockSimulation) : Reachable s → Reachable (remove_target s)
  | enable_target (s : FlockSimulation) : Reachable s → Reachable (enable_target s)
  | toggle_connections (s : FlockSimulation) :
      Reachable s → Reachable (toggle_connections s)
  | start (s : FlockSimulation) : Reachable s → Reachable (start s)
  | stop (s : FlockSimulation) : Reachable s → Reachable (stop s)

/-! ## Auxiliary definitions used by the proofs -/

/-- The disc branch of `project_to_obstacle` with the quotient
`radius / distance_to_center`, which the source computes before the distance
guard, replaced by an arbitrary value `mu`. -/
def project_to_disc_with (mu : ℝ) (agent : Agent) (obstacle : Obstacle) : BetaAgent :=
  let to_center := obstacle.position - agent.position
  let distance_to_center := to_center.length
  if distance_to_center > 0.1 then
    let direction := to_center.normalized
    { position := obstacle.position - direction * obstacle.radius
      velocity := (agent.velocity - direction * agent.velocity.dot direction) * mu }
  else
    { position := obstacle.position + ⟨obstacle.radius, 0⟩
      velocity := ⟨0, 0⟩ }

/-- Positions and velocities of a vector of agents: what the force functions read. -/
def kinematics (l : List Agent) : List (Vector2 × Vector2) :=
  l.map (fun a => (a.position, a.velocity))

/-- Agent number `k` with its acceleration overwritten by the three forces,
the alpha force being computed against the agent vector `orig`. -/
def accelerate (s : FlockSimulation) (orig : List Agent) (k : ℕ) (agent : Agent) : Agent :=
  { agent with
    acceleration := compute_alpha_force s.params orig k agent
      + compute_beta_force s.params s.beta_agents agent + compute_gamma_force s agent }

/-- Agents `k, k+1, ...` accelerated one by one against the fixed vector `orig`. -/
def accel_map (s : FlockSimulation) (orig : List Agent) : ℕ → List Agent → List Agent
  | _, [] => []
  | k, agent :: rest => accelerate s orig k agent :: accel_map s orig (k + 1) rest

/-- Unit vector from the agent toward the obstacle centre, written out as the
offset divided by its Euclidean length. -/
def radial_direction (agent : Agent) (obstacle : Obstacle) : Vector2 :=
  ⟨(obstacle.position - agent.position).x / (obstacle.position - agent.position).length,
    (obstacle.position - agent.position).y / (obstacle.position - agent.position).length⟩

/-- Virtual agents of one agent, as the specification describes them: one per
obstacle with `|o.position - agent.position| < obstacle_range + o.radius`, in
obstacle order. -/
def agent_projections (p : Parameters) (obstacles : List Obstacle) (agent : Agent) :
    List BetaAgent :=
  (obstacles.filter
    (fun o => decide ((o.position - agent.position).length < p.obstacle_range + o.radius))).map
    (project_to_obstacle agent)

/-- What one pass of the loop body of `compute_alpha_force` contributes to the
force on `a` for the neighbour `b`: the gradient and consensus terms weighted
by `c1_alpha` and `c2_alpha` when the pair passes the range test, the zero
vector otherwise. -/
def pair_force (p : Parameters) (a b : Agent) : Vector2 :=
  if (b.position - a.position).length < p.interaction_range
      ∧ (b.position - a.position).length > 0.1 then
    (sigma_epsilon p (b.position - a.position)
        * phi_alpha p (sigma_norm p (b.position - a.position))) * p.c1_alpha
      + ((b.velocity - a.velocity) * alpha_adjacency p a.position b.position) * p.c2_alpha
  else ⟨0, 0⟩

/-! ## Concrete states used as inputs -/

/-- A state holding the given agents and nothing else: no obstacles, no
virtual agents, navigation disabled, source parameters. -/
def bare_state (agents : List Agent) : FlockSimulation :=
  { agents := agents
    obstacles := []
    beta_agents := []
    gamma_target := ⟨100, 100⟩
    gamma_velocity := ⟨0, 0⟩
    running := true
    show_beta_agents := false
    use_gamma_target := false
    show_connections := false
    params := default_params }

/-- One agent inside the soft boundary zone, flying parallel to the edge at
the maximum speed. -/
def edge_runner : Agent := ⟨⟨190, 0⟩, ⟨0, 100⟩, ⟨0, 0⟩⟩

/-- One agent at the origin whose stored speed is twice the maximum. -/
def fast_agent : Agent := ⟨⟨0, 0⟩, ⟨200, 0⟩, ⟨0, 0⟩⟩

/-- One agent at rest inside the soft boundary zone. -/
def resting_edge_agent : Agent := ⟨⟨190, 0⟩, ⟨0, 0⟩, ⟨0, 0⟩⟩

/-- One agent at rest 5 units past the soft threshold. -/
def soft_zone_agent : Agent := ⟨⟨185, 0⟩, ⟨0, 0⟩, ⟨0, 0⟩⟩

/-- One agent at rest 20 units beyond the hard threshold. -/
def escaped_agent : Agent := ⟨⟨220, 0⟩, ⟨0, 0⟩, ⟨0, 0⟩⟩

/-- An agent at the origin with a non-zero velocity. -/
def origin_agent : Agent := ⟨⟨0, 0⟩, ⟨1, 1⟩, ⟨0, 0⟩⟩

/-- A disc of radius 0.01 whose centre is 0.05 to the right of the origin. -/
def tiny_disc : Obstacle := ⟨⟨0.05, 0⟩, 0.01, false, ⟨0, 0⟩⟩

/-- A disc of radius 4 whose centre is 10 to the right of the origin. -/
def plain_disc : Obstacle := ⟨⟨10, 0⟩, 4, false, ⟨0, 0⟩⟩

/-- Left agent of the end-to-end scenario: at rest at `(-10, 0)`. -/
def facing_left : Agent := ⟨⟨-10, 0⟩, ⟨0, 0⟩, ⟨0, 0⟩⟩

/-- Right agent of the end-to-end scenario: at rest at `(10, 0)`. -/
def facing_right : Agent := ⟨⟨10, 0⟩, ⟨0, 0⟩, ⟨0, 0⟩⟩

/-- The end-to-end scenario: the two agents, navigation disabled, no obstacles. -/
def facing_state : FlockSimulation := bare_state [facing_left, facing_right]

/-- A disc of radius 15 centred exactly where `origin_agent` stands. -/
def centred_disc : Obstacle := ⟨⟨0, 0⟩, 15, false, ⟨0, 0⟩⟩

/-- A wall whose reference point is `(3, 10)`: closer to `origin_agent` along
`x` than along `y`. -/
def upper_wall : Obstacle := ⟨⟨3, 10⟩, 15, true, ⟨0, 0⟩⟩

/-- A wall whose reference point is `(10, 3)`. -/
def right_wall : Obstacle := ⟨⟨10, 3⟩, 15, true, ⟨0, 0⟩⟩

/-- A virtual agent 5 units to the right of the origin: inside `obstacle_range`
(5.2) but beyond `0.6 * desired_distance` (4.2). -/
def mid_range_beta : BetaAgent := ⟨⟨5, 0⟩, ⟨2, 3⟩⟩

/-- An agent 8 units to the right of the origin with the velocity of
`origin_agent`: between `desired_distance` and `interaction_range`. -/
def loose_neighbour : Agent := ⟨⟨8, 0⟩, ⟨1, 1⟩, ⟨0, 0⟩⟩

/-- An agent 5 units to the right of the origin with the velocity of
`origin_agent`: closer than `desired_distance`. -/
def close_neighbour : Agent := ⟨⟨5, 0⟩, ⟨1, 1⟩, ⟨0, 0⟩⟩

/-- A state the constructor can produce: all 1000 draws equal to 0. -/
def fresh_state : FlockSimulation :=
  { agents := List.replicate 1000 ⟨⟨0, 0⟩, ⟨0, 0⟩, ⟨0, 0⟩⟩
    obstacles := []
    beta_agents := []
    gamma_target := ⟨100, 100⟩
    gamma_velocity := ⟨0, 0⟩
    running := false
    show_beta_agents := false
    use_gamma_target := true
    show_connections := false
    params := default_params }

/-- A pair of agents exactly 7 apart with equal velocities. -/
def paired_left : Agent := ⟨⟨0, 0⟩, ⟨1, 2⟩, ⟨0, 0⟩⟩

/-- Right-hand member of the pair. -/
def paired_right : Agent := ⟨⟨7, 0⟩, ⟨1, 2⟩, ⟨5, 5⟩⟩

/-- One agent drifting at speed 5 well inside the arena. -/
def drifting_agent : Agent := ⟨⟨0, 0⟩, ⟨3, 4⟩, ⟨0, 0⟩⟩

/-- A second agent, 50 units to the right of `drifting_agent`. -/
def distant_agent : Agent := ⟨⟨50, 0⟩, ⟨0, 0⟩, ⟨0, 0⟩⟩

/-- Two agents far apart, with a disc obstacle of radius 8 next to the second
one only; navigation disabled. -/
def sparse_state : FlockSimulation :=
  { bare_state [drifting_agent, distant_agent] with
    obstacles := [⟨⟨60, 0⟩, 8, false, ⟨0, 0⟩⟩] }

/-- The state `sparse_state` with everything the physics does not read
changed: both display flags, the run state, the stored accelerations and the
stored virtual agents. -/
def sparse_state_repainted : FlockSimulation :=
  { sparse_state with
    agents := [⟨⟨0, 0⟩, ⟨3, 4⟩, ⟨9, 9⟩⟩, ⟨⟨50, 0⟩, ⟨0, 0⟩, ⟨-1, 2⟩⟩]
    beta_agents := [⟨⟨1, 1⟩, ⟨1, 1⟩⟩]
    running := false
    show_beta_agents := true
    show_connections := true }

/-! ## Vector lemmas -/

namespace Vector2

@[simp]
theorem add_x (a b : Vector2) : (a + b).x = a.x + b.x := rfl

@[simp]
theorem add_y (a b : Vector2) : (a + b).y = a.y + b.y := rfl

@[simp]
theorem sub_x (a b : Vector2) : (a - b).x = a.x - b.x := rfl

@[simp]
theorem sub_y (a b : Vector2) : (a - b).y = a.y - b.y := rfl

@[simp]
theorem mul_x (a : Vector2) (c : ℝ) : (a * c).x = a.x * c := rfl

@[simp]
theorem mul_y (a : Vector2) (c : ℝ) : (a * c).y = a.y * c := rfl

@[simp]
theorem mk_add_mk (a b c d : ℝ) : (⟨a, b⟩ : Vector2) + ⟨c, d⟩ = ⟨a + c, b + d⟩ := rfl

@[simp]
theorem mk_sub_mk (a b c d : ℝ) : (⟨a, b⟩ : Vector2) - ⟨c, d⟩ = ⟨a - c, b - d⟩ := rfl

@[simp]
theorem mk_mul (a b c : ℝ) : (⟨a, b⟩ : Vector2) * c = ⟨a * c, b * c⟩ := rfl

@[simp]
theorem zero_mul_scalar (c : ℝ) : (⟨0, 0⟩ : Vector2) * c = ⟨0, 0⟩ := by
  ext <;> simp

@[simp]
theorem add_zero_vec (a : Vector2) : a + (⟨0, 0⟩ : Vector2) = a := by
  ext <;> simp

@[simp]
theorem zero_vec_add (a : Vector2) : (⟨0, 0⟩ : Vector2) + a = a := by
  ext <;> simp

@[simp]
theorem mul_zero_scalar (a : Vector2) : a * (0 : ℝ) = ⟨0, 0⟩ := by
  ext <;> simp

theorem length_nonneg (a : Vector2) : 0 ≤ a.length := Real.sqrt_nonneg _

theorem sq_sum_nonneg (a : Vector2) : 0 ≤ a.x * a.x + a.y * a.y := by
  nlinarith [mul_self_nonneg a.x, mul_self_nonneg a.y]

theorem length_mul_self (a : Vector2) : a.length * a.length = a.x * a.x + a.y * a.y :=
  Real.mul_self_sqrt a.sq_sum_nonneg

theorem length_mul (a : Vector2) (c : ℝ) : (a * c).length = a.length * |c| := by
  unfold length
  rw [mul_x, mul_y, ← Real.sqrt_mul_self (abs_nonneg c), ← Real.sqrt_mul a.sq_sum_nonneg]
  congr 1
  rw [abs_mul_abs_self]
  ring

theorem length_normalized (a : Vector2) (h : ¬ a.length < 1e-10) : a.normalized.length = 1 := by
  have hpos : 0 < a.length := lt_of_lt_of_le (by norm_num) (not_lt.mp h)
  have hne : a.length ≠ 0 := ne_of_gt hpos
  have e : a.normalized = ⟨a.x / a.length, a.y / a.length⟩ := by
    unfold normalized
    simp only [h, if_false]
  rw [e]
  show Real.sqrt (a.x / a.length * (a.x / a.length) + a.y / a.length * (a.y / a.length)) = 1
  rw [show a.x / a.length * (a.x / a.length) + a.y / a.length * (a.y / a.length)
      = (a.x * a.x + a.y * a.y) / (a.length * a.length) by field_simp]
  rw [← a.length_mul_self, div_self (mul_ne_zero hne hne), Real.sqrt_one]

theorem length_axis (c : ℝ) : Vector2.length ⟨c, 0⟩ = |c| := by
  unfold length
  rw [show c * c + (0 : ℝ) * 0 = c * c by ring]
  exact Real.sqrt_mul_self_eq_abs c

theorem length_axis_y (c : ℝ) : Vector2.length ⟨0, c⟩ = |c| := by
  unfold length
  rw [show (0 : ℝ) * 0 + c * c = c * c by ring]
  exact Real.sqrt_mul_self_eq_abs c

@[simp]
theorem sub_self_vec (a : Vector2) : a - a = ⟨0, 0⟩ := by
  ext <;> simp

theorem length_sub_comm (a b : Vector2) : (a - b).length = (b - a).length := by
  unfold length
  congr 1
  simp only [sub_x, sub_y]
  ring

theorem dot_le_length_mul (a b : Vector2) : a.dot b ≤ a.length * b.length := by
  have h : (a.dot b) ^ 2 ≤ (a.x * a.x + a.y * a.y) * (b.x * b.x + b.y * b.y) := by
    unfold dot
    nlinarith [sq_nonneg (a.x * b.y - a.y * b.x)]
  calc a.dot b ≤ |a.dot b| := le_abs_self _
    _ ≤ Real.sqrt ((a.x * a.x + a.y * a.y) * (b.x * b.x + b.y * b.y)) := Real.abs_le_sqrt h
    _ = a.length * b.length := Real.sqrt_mul a.sq_sum_nonneg _

theorem length_add_le (a b : Vector2) : (a + b).length ≤ a.length + b.length := by
  have ha := a.length_mul_self
  have hb := b.length_mul_self
  have hd := dot_le_length_mul a b
  unfold dot at hd
  have hs : (a + b).length = Real.sqrt ((a.x + b.x) * (a.x + b.x) + (a.y + b.y) * (a.y + b.y)) :=
    rfl
  rw [hs, Real.sqrt_le_iff]
  refine ⟨add_nonneg a.length_nonneg b.length_nonneg, ?_⟩
  nlinarith

theorem normalized_of_pos (a : Vector2) (h : 0.1 < a.length) :
    a.normalized = ⟨a.x / a.length, a.y / a.length⟩ := by
  have h2 : ¬ a.length < 1e-10 := by
    intro h3
    have : (0.1 : ℝ) < 1e-10 := lt_trans h h3
    norm_num at this
  unfold normalized
  simp only [h2, if_false]

end Vector2

/-! ## Structure of `step` -/

theorem alpha_loop_congr (p : Parameters) (i : ℕ) (agent : Agent) :
    ∀ (l1 l2 : List Agent) (j : ℕ) (acc : Vector2 × Vector2),
      kinematics l1 = kinematics l2 →
      alpha_loop p i agent l1 j acc = alpha_loop p i agent l2 j acc := by
  intro l1
  induction l1 with
  | nil =>
    intro l2 j acc h
    cases l2 with
    | nil => rfl
    | cons b l2 => simp [kinematics] at h
  | cons a l1 ih =>
    intro l2 j acc h
    cases l2 with
    | nil => simp [kinematics] at h
    | cons b l2 =>
      simp only [kinematics, List.map_cons, List.cons.injEq, Prod.mk.injEq] at h
      obtain ⟨⟨hp, hv⟩, ht⟩ := h
      simp only [alpha_loop, hp, hv]
      split_ifs <;> exact ih l2 _ _ ht

theorem compute_alpha_force_congr (p : Parameters) (i : ℕ) (agent : Agent) (l1 l2 : List Agent)
    (h : kinematics l1 = kinematics l2) :
    compute_alpha_force p l1 i agent = compute_alpha_force p l2 i agent := by
  simp only [compute_alpha_force, alpha_loop_congr p i agent l1 l2 0 _ h]

theorem accel_loop_eq (s : FlockSimulation) (orig : List Agent) :
    ∀ (todo done : List Agent), kinematics (done ++ todo) = kinematics orig →
      accel_loop s done todo = done ++ accel_map s orig done.length todo := by
  intro todo
  induction todo with
  | nil => intro done _; simp [accel_loop, accel_map]
  | cons a rest ih =>
    intro done h
    simp only [accel_loop, accel_map]
    rw [compute_alpha_force_congr s.params done.length a (done ++ a :: rest) orig h]
    rw [ih]
    · simp [accelerate]
    · rw [← h]
      simp [kinematics]

theorem accel_map_getElem? (s : FlockSimulation) (orig : List Agent) :
    ∀ (l : List Agent) (k i : ℕ),
      (accel_map s orig k l)[i]? = (l[i]?).map (accelerate s orig (k + i)) := by
  intro l
  induction l with
  | nil => intro k i; simp [accel_map]
  | cons a rest ih =>
    intro k i
    cases i with
    | zero => simp [accel_map]
    | succ i =>
      simp only [accel_map, List.getElem?_cons_succ, ih]
      rw [show k + 1 + i = k + (i + 1) by omega]

theorem step_agents (s : FlockSimulation) (dt : ℝ) :
    (step s dt).agents
      = (accel_map (update_beta_agents s) s.agents 0 s.agents).map (integrate dt) := by
  have h : (update_beta_agents s).agents = s.agents := rfl
  simp only [step, h]
  rw [accel_loop_eq (update_beta_agents s) s.agents s.agents [] rfl]
  rfl

theorem step_agents_getElem? (s : FlockSimulation) (dt : ℝ) (i : ℕ) :
    (step s dt).agents[i]?
      = (s.agents[i]?).map
          (fun a => integrate dt (accelerate (update_beta_agents s) s.agents i a)) := by
  rw [step_agents, List.getElem?_map, accel_map_getElem?]
  simp [Function.comp_def]

/-! ## Agents that interact with nothing -/

theorem alpha_loop_skip (p : Parameters) (i : ℕ) (agent : Agent) :
    ∀ (l : List Agent) (k : ℕ) (acc : Vector2 × Vector2),
      (∀ j b, k + j ≠ i → l[j]? = some b →
        p.interaction_range ≤ (b.position - agent.position).length) →
      alpha_loop p i agent l k acc = acc := by
  intro l
  induction l with
  | nil => intro k acc _; rfl
  | cons b rest ih =>
    intro k acc h
    have hrest : alpha_loop p i agent rest (k + 1) acc = acc := by
      apply ih
      intro j c hj hc
      apply h (j + 1) c (by omega)
      simpa using hc
    simp only [alpha_loop]
    split_ifs with h1 h2
    · exact hrest
    · exfalso
      have := h 0 b (by simpa using h1) (by simp)
      linarith [h2.1]
    · exact hrest

theorem beta_loop_skip (p : Parameters) (agent : Agent) :
    ∀ (l : List BetaAgent) (acc : Vector2 × Vector2),
      (∀ b ∈ l, p.obstacle_range ≤ (b.position - agent.position).length) →
      beta_loop p agent l acc = acc := by
  intro l
  induction l with
  | nil => intro acc _; rfl
  | cons b rest ih =>
    intro acc h
    have hrest : beta_loop p agent rest acc = acc :=
      ih acc (fun c hc => h c (List.mem_cons_of_mem _ hc))
    simp only [beta_loop]
    split_ifs with h1
    · exfalso
      have := h b (List.mem_cons_self _ _)
      linarith [h1.1]
    · exact hrest

theorem accelerate_isolated (s : FlockSimulation) (orig : List Agent) (i : ℕ) (a : Agent)
    (hnav : s.use_gamma_target = false)
    (hα : ∀ j b, j ≠ i → orig[j]? = some b →
      s.params.interaction_range ≤ (b.position - a.position).length)
    (hβ : ∀ b ∈ s.beta_agents, s.params.obstacle_range ≤ (b.position - a.position).length) :
    accelerate s orig i a = { a with acceleration := ⟨0, 0⟩ } := by
  have h1 : compute_alpha_force s.params orig i a = ⟨0, 0⟩ := by
    unfold compute_alpha_force
    rw [alpha_loop_skip s.params i a orig 0 _ (fun j b hj hb => hα j b (by simpa using hj) hb)]
    simp
  have h2 : compute_beta_force s.params s.beta_agents a = ⟨0, 0⟩ := by
    unfold compute_beta_force
    rw [beta_loop_skip s.params a s.beta_agents _ hβ]
    simp
  have h3 : compute_gamma_force s a = ⟨0, 0⟩ := by
    unfold compute_gamma_force
    simp [hnav]
  unfold accelerate
  rw [h1, h2, h3]
  simp

/-- In a state made of a single agent the step integrates that agent with a
zero acceleration. -/
theorem step_bare_single (a : Agent) (dt : ℝ) :
    (step (bare_state [a]) dt).agents[0]?
      = some (integrate dt { a with acceleration := ⟨0, 0⟩ }) := by
  have hc : (bare_state [a]).agents[0]? = some a := rfl
  rw [step_agents_getElem?, hc, Option.map_some', accelerate_isolated _ _ _ _ rfl]
  · intro j b hj hb
    cases j with
    | zero => exact absurd rfl hj
    | succ j => simp [bare_state] at hb
  · intro b hb
    have : (update_beta_agents (bare_state [a])).beta_agents = [] := rfl
    rw [this] at hb
    simp at hb

/-! ## Integrator lemmas -/

theorem clamped_velocity_length_le (dt : ℝ) (a : Agent) :
    (clamped_velocity dt a).length ≤ 100 := by
  unfold clamped_velocity
  simp only
  split_ifs with h
  · rw [Vector2.length_mul, Vector2.length_normalized]
    · norm_num
    · intro h2
      have : (100 : ℝ) < 1e-10 := lt_trans h h2
      norm_num at this
  · exact not_lt.mp h

theorem clamped_velocity_of_le (dt : ℝ) (a : Agent)
    (h : (a.velocity + a.acceleration * dt).length ≤ 100) :
    clamped_velocity dt a = a.velocity + a.acceleration * dt := by
  unfold clamped_velocity
  simp only
  rw [if_neg (not_lt.mpr h)]

theorem integrate_position (dt : ℝ) (a : Agent) :
    (integrate dt a).position = a.position + clamped_velocity dt a * dt := rfl

theorem integrate_acceleration (dt : ℝ) (a : Agent) :
    (integrate dt a).acceleration = a.acceleration := rfl

theorem integrate_velocity_x_inside (dt : ℝ) (a : Agent)
    (h : |(integrate dt a).position.x| ≤ 180) :
    (integrate dt a).velocity.x = (clamped_velocity dt a).x := by
  rw [integrate_position] at h
  simp only [integrate]
  rw [if_neg (not_lt.mpr h)]

theorem integrate_velocity_y_inside (dt : ℝ) (a : Agent)
    (h : |(integrate dt a).position.y| ≤ 180) :
    (integrate dt a).velocity.y = (clamped_velocity dt a).y := by
  rw [integrate_position] at h
  simp only [integrate]
  rw [if_neg (not_lt.mpr h)]

theorem integrate_velocity_x_outside (dt : ℝ) (a : Agent)
    (h : 180 < |(integrate dt a).position.x|) :
    (integrate dt a).velocity.x = (clamped_velocity dt a).x
      + (if (integrate dt a).position.x > 0 then -1 else 1)
        * ((200 - |(integrate dt a).position.x|) / (200 - 180)) * 5 := by
  rw [integrate_position] at h
  simp only [integrate]
  rw [if_pos h]

theorem integrate_velocity_y_outside (dt : ℝ) (a : Agent)
    (h : 180 < |(integrate dt a).position.y|) :
    (integrate dt a).velocity.y = (clamped_velocity dt a).y
      + (if (integrate dt a).position.y > 0 then -1 else 1)
        * ((200 - |(integrate dt a).position.y|) / (200 - 180)) * 5 := by
  rw [integrate_position] at h
  simp only [integrate]
  rw [if_pos h]

/-! ## Concrete evaluations -/

theorem length_three_four : Vector2.length ⟨3, 4⟩ = 5 := by
  unfold Vector2.length
  rw [show ((3 : ℝ) * 3 + 4 * 4) = 5 * 5 by norm_num]
  exact Real.sqrt_mul_self (by norm_num)

theorem sparse_state_beta_agents :
    (update_beta_agents sparse_state).beta_agents = [⟨⟨52, 0⟩, ⟨0, 0⟩⟩] := by
  simp [update_beta_agents, sparse_state, bare_state, beta_collect, beta_scan, drifting_agent,
    distant_agent, default_params, Vector2.length_axis]
  norm_num [Vector2.length_axis, project_to_obstacle, Vector2.normalized, Vector2.dot]

theorem sparse_state_alpha_far (j : ℕ) (b : Agent) (hj : j ≠ 0)
    (hb : sparse_state.agents[j]? = some b) :
    sparse_state.params.interaction_range ≤ (b.position - drifting_agent.position).length := by
  match j, hj, hb with
  | 1, _, hb =>
    have e : b = distant_agent := by
      have h1 : sparse_state.agents[1]? = some distant_agent := rfl
      rw [h1] at hb
      exact (Option.some.inj hb).symm
    subst e
    show default_params.interaction_range ≤ _
    norm_num [default_params, distant_agent, drifting_agent, Vector2.length_axis]
  | j + 2, _, hb =>
    have h1 : sparse_state.agents[j + 2]? = none := rfl
    rw [h1] at hb
    exact absurd hb (by simp)

theorem sparse_state_beta_far (b : BetaAgent)
    (hb : b ∈ (update_beta_agents sparse_state).beta_agents) :
    sparse_state.params.obstacle_range ≤ (b.position - drifting_agent.position).length := by
  rw [sparse_state_beta_agents, List.mem_singleton] at hb
  subst hb
  show default_params.obstacle_range ≤ _
  norm_num [default_params, drifting_agent, Vector2.length_axis]

/-! ## C1: speed bound -/

/-- C1, counterexample: a single agent flying at the maximum speed parallel to
the edge, 10 units past the soft threshold, ends `step 0.1` with velocity
`(-2.5, 100)`, whose length exceeds 100: the boundary correction is added
after the speed clamp. -/
theorem speed_bound_broken_by_containment :
    (step (bare_state [edge_runner]) 0.1).agents[0]?
        = some ⟨⟨190, 10⟩, ⟨-2.5, 100⟩, ⟨0, 0⟩⟩
      ∧ (100 : ℝ) < Vector2.length ⟨-2.5, 100⟩ := by
  constructor
  · have hv : clamped_velocity 0.1 ⟨⟨190, 0⟩, ⟨0, 100⟩, ⟨0, 0⟩⟩ = ⟨0, 100⟩ := by
      rw [clamped_velocity_of_le] <;> norm_num [Vector2.length_axis_y]
    rw [step_bare_single]
    simp only [edge_runner, integrate, hv]
    norm_num
  · unfold Vector2.length
    rw [Real.lt_sqrt (by norm_num)]
    norm_num

/-- C1, amended: after `step dt` every agent has been moved with a velocity `w`
of length at most 100 (the velocity after the speed clamp), and an agent whose
updated position has `|x| ≤ 180` and `|y| ≤ 180` stores exactly `w`, so its
stored speed is at most 100. -/
theorem step_speed_bounded (s : FlockSimulation) (dt : ℝ) (i : ℕ) (a : Agent)
    (h : s.agents[i]? = some a) :
    ∃ (a' : Agent) (w : Vector2), (step s dt).agents[i]? = some a' ∧ w.length ≤ 100 ∧
      a'.position = a.position + w * dt ∧
      (|a'.position.x| ≤ 180 → |a'.position.y| ≤ 180 →
        a'.velocity = w ∧ a'.velocity.length ≤ 100) := by
  refine ⟨integrate dt (accelerate (update_beta_agents s) s.agents i a),
    clamped_velocity dt (accelerate (update_beta_agents s) s.agents i a), ?_, ?_, ?_, ?_⟩
  · rw [step_agents_getElem?, h, Option.map_some']
  · exact clamped_velocity_length_le _ _
  · rw [integrate_position]
    rfl
  · intro hx hy
    have e : (integrate dt (accelerate (update_beta_agents s) s.agents i a)).velocity
        = clamped_velocity dt (accelerate (update_beta_agents s) s.agents i a) := by
      ext
      · exact integrate_velocity_x_inside _ _ hx
      · exact integrate_velocity_y_inside _ _ hy
    rw [e]
    exact ⟨rfl, clamped_velocity_length_le _ _⟩

/-- C1, amended, instance: the drifting agent of `sparse_state`. -/
theorem step_speed_bounded_witness :
    ∃ (a' : Agent) (w : Vector2), (step sparse_state 0.1).agents[0]? = some a' ∧
      w.length ≤ 100 ∧ a'.position = drifting_agent.position + w * (0.1 : ℝ) ∧
      (|a'.position.x| ≤ 180 → |a'.position.y| ≤ 180 →
        a'.velocity = w ∧ a'.velocity.length ≤ 100) :=
  step_speed_bounded sparse_state 0.1 0 drifting_agent rfl

/-! ## C5, C6: an agent that interacts with nothing -/

/-- C5: with navigation disabled, an agent at Euclidean distance at least
`interaction_range` from every other agent and at least `obstacle_range` from
every virtual agent produced in this step has the zero vector as its stored
acceleration after `step dt`. -/
theorem isolated_agent_zero_acceleration (s : FlockSimulation) (dt : ℝ) (i : ℕ) (a : Agent)
    (hnav : s.use_gamma_target = false)
    (hi : s.agents[i]? = some a)
    (hα : ∀ j b, j ≠ i → s.agents[j]? = some b →
      s.params.interaction_range ≤ (b.position - a.position).length)
    (hβ : ∀ b ∈ (update_beta_agents s).beta_agents,
      s.params.obstacle_range ≤ (b.position - a.position).length) :
    ∃ a' : Agent, (step s dt).agents[i]? = some a' ∧ a'.acceleration = ⟨0, 0⟩ := by
  refine ⟨integrate dt (accelerate (update_beta_agents s) s.agents i a), ?_, ?_⟩
  · rw [step_agents_getElem?, hi, Option.map_some']
  · rw [integrate_acceleration, accelerate_isolated (update_beta_agents s) s.agents i a hnav hα hβ]

/-- C5, instance: the drifting agent of `sparse_state`, 50 units from the other
agent and 52 units from the only virtual agent. -/
theorem isolated_agent_zero_acceleration_witness :
    ∃ a' : Agent, (step sparse_state 0.1).agents[0]? = some a' ∧ a'.acceleration = ⟨0, 0⟩ :=
  isolated_agent_zero_acceleration sparse_state 0.1 0 drifting_agent rfl rfl
    sparse_state_alpha_far sparse_state_beta_far

/-- C6, counterexample: an isolated agent with navigation disabled does not
always keep its velocity.  An agent at the origin with stored velocity
`(200, 0)` is clamped to `(100, 0)` and reaches `(100, 0)` instead of `(200, 0)`
after `step 1`; an agent at rest at `(190, 0)` leaves `step 1` with velocity
`(-2.5, 0)`. -/
theorem isolated_agent_velocity_changes :
    (step (bare_state [fast_agent]) 1).agents[0]? = some ⟨⟨100, 0⟩, ⟨100, 0⟩, ⟨0, 0⟩⟩
      ∧ (step (bare_state [resting_edge_agent]) 1).agents[0]?
        = some ⟨⟨190, 0⟩, ⟨-2.5, 0⟩, ⟨0, 0⟩⟩ := by
  constructor
  · have hv : clamped_velocity 1 ⟨⟨0, 0⟩, ⟨200, 0⟩, ⟨0, 0⟩⟩ = ⟨100, 0⟩ := by
      unfold clamped_velocity
      norm_num [Vector2.length_axis, Vector2.normalized]
    rw [step_bare_single]
    simp only [fast_agent, integrate, hv]
    norm_num
  · have hv : clamped_velocity 1 ⟨⟨190, 0⟩, ⟨0, 0⟩, ⟨0, 0⟩⟩ = ⟨0, 0⟩ := by
      rw [clamped_velocity_of_le] <;> norm_num [Vector2.length_axis]
    rw [step_bare_single]
    simp only [resting_edge_agent, integrate, hv]
    norm_num

/-- C6, amended: with navigation disabled, an agent out of range of every other
agent and of every virtual agent, whose stored speed is at most 100, is moved
to `old position + old velocity * dt`; its velocity component on an axis is
unchanged whenever the updated coordinate on that axis is within the soft
threshold (`|x| ≤ 180`, resp. `|y| ≤ 180`). -/
theorem isolated_agent_straight_line (s : FlockSimulation) (dt : ℝ) (i : ℕ) (a : Agent)
    (hnav : s.use_gamma_target = false)
    (hi : s.agents[i]? = some a)
    (hα : ∀ j b, j ≠ i → s.agents[j]? = some b →
      s.params.interaction_range ≤ (b.position - a.position).length)
    (hβ : ∀ b ∈ (update_beta_agents s).beta_agents,
      s.params.obstacle_range ≤ (b.position - a.position).length)
    (hspeed : a.velocity.length ≤ 100) :
    ∃ a' : Agent, (step s dt).agents[i]? = some a' ∧
      a'.position = a.position + a.velocity * dt ∧
      (|a'.position.x| ≤ 180 → a'.velocity.x = a.velocity.x) ∧
      (|a'.position.y| ≤ 180 → a'.velocity.y = a.velocity.y) := by
  have hacc := accelerate_isolated (update_beta_agents s) s.agents i a hnav hα hβ
  have hv : clamped_velocity dt { a with acceleration := ⟨0, 0⟩ } = a.velocity := by
    rw [clamped_velocity_of_le] <;> simp [hspeed]
  refine ⟨integrate dt { a with acceleration := ⟨0, 0⟩ }, ?_, ?_, ?_, ?_⟩
  · rw [step_agents_getElem?, hi, Option.map_some', hacc]
  · rw [integrate_position, hv]
  · intro hx
    rw [integrate_velocity_x_inside _ _ hx, hv]
  · intro hy
    rw [integrate_velocity_y_inside _ _ hy, hv]

/-- C6, amended, instance: the drifting agent of `sparse_state` (speed 5). -/
theorem isolated_agent_straight_line_witness :
    ∃ a' : Agent, (step sparse_state 0.1).agents[0]? = some a' ∧
      a'.position = drifting_agent.position + drifting_agent.velocity * (0.1 : ℝ) ∧
      (|a'.position.x| ≤ 180 → a'.velocity.x = drifting_agent.velocity.x) ∧
      (|a'.position.y| ≤ 180 → a'.velocity.y = drifting_agent.velocity.y) :=
  isolated_agent_straight_line sparse_state 0.1 0 drifting_agent rfl rfl
    sparse_state_alpha_far sparse_state_beta_far
    (by rw [show drifting_agent.velocity = ⟨3, 4⟩ from rfl, length_three_four]; norm_num)

/-! ## Smoothing and action function lemmas -/

theorem sigma_norm_congr (p : Parameters) (z1 z2 : Vector2) (h : z1.length = z2.length) :
    sigma_norm p z1 = sigma_norm p z2 := by
  unfold sigma_norm
  rw [h]

theorem bump_function_nonneg (z h : ℝ) : 0 ≤ bump_function z h := by
  unfold bump_function
  split_ifs
  · exact zero_le_one
  · have := Real.neg_one_le_cos (Real.pi * (z - h) / (1 - h))
    norm_num
    linarith
  · exact le_refl 0

theorem bump_function_pos (z h : ℝ) (hz : z < 1) : 0 < bump_function z h := by
  unfold bump_function
  split_ifs with h1
  · exact zero_lt_one
  · have h1 : h ≤ z := not_lt.mp h1
    have hh : 0 < 1 - h := by linarith
    have h0 : 0 ≤ Real.pi * (z - h) / (1 - h) :=
      div_nonneg (mul_nonneg Real.pi_pos.le (by linarith)) hh.le
    have hlt : Real.pi * (z - h) / (1 - h) < Real.pi := by
      rw [div_lt_iff₀ hh]
      exact mul_lt_mul_of_pos_left (by linarith) Real.pi_pos
    have := Real.cos_lt_cos_of_nonneg_of_le_pi h0 le_rfl hlt
    rw [Real.cos_pi] at this
    norm_num
    linarith

theorem action_sqrt_pos (t : ℝ) : 0 < Real.sqrt (1 + t * t) :=
  Real.sqrt_pos.mpr (by nlinarith [mul_self_nonneg t])

theorem phi_alpha_nonneg_above (p : Parameters) (z : ℝ)
    (h : sigma_norm p ⟨p.desired_distance, 0⟩ < z) : 0 ≤ phi_alpha p z := by
  unfold phi_alpha
  exact mul_nonneg (bump_function_nonneg _ _)
    (div_nonneg (by linarith) (action_sqrt_pos _).le)

theorem phi_alpha_pos_above (p : Parameters) (z : ℝ)
    (h : sigma_norm p ⟨p.desired_distance, 0⟩ < z)
    (hb : 0 < bump_function (z / sigma_norm p ⟨p.interaction_range, 0⟩) p.h_alpha) :
    0 < phi_alpha p z := by
  unfold phi_alpha
  exact mul_pos hb (div_pos (by linarith) (action_sqrt_pos _))

theorem phi_alpha_nonpos_below (p : Parameters) (z : ℝ)
    (h : z < sigma_norm p ⟨p.desired_distance, 0⟩) : phi_alpha p z ≤ 0 := by
  unfold phi_alpha
  exact mul_nonpos_of_nonneg_of_nonpos (bump_function_nonneg _ _)
    (div_nonpos_of_nonpos_of_nonneg (by linarith) (action_sqrt_pos _).le)

theorem phi_alpha_neg_below (p : Parameters) (z : ℝ)
    (h : z < sigma_norm p ⟨p.desired_distance, 0⟩)
    (hb : 0 < bump_function (z / sigma_norm p ⟨p.interaction_range, 0⟩) p.h_alpha) :
    phi_alpha p z < 0 := by
  unfold phi_alpha
  exact mul_neg_of_pos_of_neg hb (div_neg_of_neg_of_pos (by linarith) (action_sqrt_pos _))

theorem phi_alpha_zero_of_length (p : Parameters) (z : Vector2)
    (h : z.length = p.desired_distance) : phi_alpha p (sigma_norm p z) = 0 := by
  have e : sigma_norm p z = sigma_norm p ⟨p.desired_distance, 0⟩ := by
    apply sigma_norm_congr
    rw [Vector2.length_axis, ← h, abs_of_nonneg z.length_nonneg]
  unfold phi_alpha
  simp [e]

/-- With the source parameters `d_alpha` lies between 14 and 15. -/
theorem d_alpha_bounds :
    14 < sigma_norm default_params ⟨default_params.desired_distance, 0⟩
      ∧ sigma_norm default_params ⟨default_params.desired_distance, 0⟩ < 15 := by
  have e : sigma_norm default_params ⟨default_params.desired_distance, 0⟩
      = 10 * (Real.sqrt 5.9 - 1) := by
    have hlen : Vector2.length ⟨default_params.desired_distance, 0⟩ = 7 := by
      rw [Vector2.length_axis]
      show |(7 : ℝ)| = 7
      exact abs_of_nonneg (by norm_num)
    unfold sigma_norm
    simp only [hlen]
    show (1 / (0.1 : ℝ)) * (Real.sqrt (1 + 0.1 * 7 * 7) - 1) = _
    rw [show (1 : ℝ) + 0.1 * 7 * 7 = 5.9 by norm_num, show (1 : ℝ) / 0.1 = 10 by norm_num]
  rw [e]
  have h1 : (2.4 : ℝ) < Real.sqrt 5.9 := by
    rw [Real.lt_sqrt (by norm_num)]
    norm_num
  have h2 : Real.sqrt 5.9 < (2.5 : ℝ) := by
    rw [Real.sqrt_lt (by norm_num) (by norm_num)]
    norm_num
  constructor <;> linarith

/-- With the source parameters `r_alpha` lies between 18 and 19. -/
theorem r_alpha_bounds :
    18 < sigma_norm default_params ⟨default_params.interaction_range, 0⟩
      ∧ sigma_norm default_params ⟨default_params.interaction_range, 0⟩ < 19 := by
  have e : sigma_norm default_params ⟨default_params.interaction_range, 0⟩
      = 10 * (Real.sqrt 8.056 - 1) := by
    have hlen : Vector2.length ⟨default_params.interaction_range, 0⟩ = 8.4 := by
      rw [Vector2.length_axis]
      show |(8.4 : ℝ)| = 8.4
      exact abs_of_nonneg (by norm_num)
    unfold sigma_norm
    simp only [hlen]
    show (1 / (0.1 : ℝ)) * (Real.sqrt (1 + 0.1 * 8.4 * 8.4) - 1) = _
    rw [show (1 : ℝ) + 0.1 * 8.4 * 8.4 = 8.056 by norm_num, show (1 : ℝ) / 0.1 = 10 by norm_num]
  rw [e]
  have h1 : (2.8 : ℝ) < Real.sqrt 8.056 := by
    rw [Real.lt_sqrt (by norm_num)]
    norm_num
  have h2 : Real.sqrt 8.056 < (2.9 : ℝ) := by
    rw [Real.sqrt_lt (by norm_num) (by norm_num)]
    norm_num
  constructor <;> linarith

theorem bump_positive_default (z : ℝ) (hz : z ≤ 18) :
    0 < bump_function (z / sigma_norm default_params ⟨default_params.interaction_range, 0⟩)
      default_params.h_alpha := by
  apply bump_function_pos
  have hr := r_alpha_bounds.1
  rw [div_lt_one (by linarith)]
  linarith

/-! ## C2, C3, C4: the alpha action function and the equilibrium spacing -/

/-- C2: in a state containing only two agents whose positions are exactly
`desired_distance` apart and whose velocities are equal, `compute_alpha_force`
returns the zero vector for each of them. -/
theorem alpha_force_zero_at_desired_distance (p : Parameters) (a b : Agent)
    (hd : (b.position - a.position).length = p.desired_distance)
    (hv : a.velocity = b.velocity) :
    compute_alpha_force p [a, b] 0 a = ⟨0, 0⟩ ∧ compute_alpha_force p [a, b] 1 b = ⟨0, 0⟩ := by
  have hd2 : (a.position - b.position).length = p.desired_distance := by
    rw [Vector2.length_sub_comm, hd]
  have h1 := phi_alpha_zero_of_length p _ hd
  have h2 := phi_alpha_zero_of_length p _ hd2
  constructor
  · unfold compute_alpha_force
    simp only [alpha_loop]
    split_ifs <;> simp_all
  · unfold compute_alpha_force
    simp only [alpha_loop]
    split_ifs <;> simp_all

/-- C2, instance: agents at `(0,0)` and `(7,0)`, both with velocity `(1,2)`,
under the source parameters. -/
theorem alpha_force_zero_at_desired_distance_witness :
    compute_alpha_force default_params [paired_left, paired_right] 0 paired_left = ⟨0, 0⟩
      ∧ compute_alpha_force default_params [paired_left, paired_right] 1 paired_right
        = ⟨0, 0⟩ :=
  alpha_force_zero_at_desired_distance default_params paired_left paired_right
    (by
      show Vector2.length (⟨7, 0⟩ - ⟨0, 0⟩) = 7
      norm_num [Vector2.length_axis])
    rfl

/-- C3, counterexample: with the source parameters `phi_alpha 1` is negative
although `1 < d_alpha`, and `phi_alpha 16` is positive although `d_alpha < 16`:
the sign is the opposite of the claimed one. -/
theorem phi_alpha_sign_is_reversed :
    (1 < sigma_norm default_params ⟨default_params.desired_distance, 0⟩
        ∧ phi_alpha default_params 1 < 0)
      ∧ (sigma_norm default_params ⟨default_params.desired_distance, 0⟩ < 16
        ∧ 0 < phi_alpha default_params 16) := by
  have hd := d_alpha_bounds
  refine ⟨⟨by linarith [hd.1], ?_⟩, ⟨by linarith [hd.2], ?_⟩⟩
  · exact phi_alpha_neg_below _ _ (by linarith [hd.1]) (bump_positive_default 1 (by norm_num))
  · exact phi_alpha_pos_above _ _ (by linarith [hd.2]) (bump_positive_default 16 (by norm_num))

/-- C3, amended: with `d_alpha = sigma_norm` of the desired distance,
`phi_alpha z ≥ 0` for every `z > d_alpha` and `phi_alpha z ≤ 0` for every
`z < d_alpha`, with strict inequality wherever
`bump_function (z / r_alpha) h_alpha > 0`. -/
theorem phi_alpha_sign (p : Parameters) (z : ℝ) :
    (sigma_norm p ⟨p.desired_distance, 0⟩ < z →
        0 ≤ phi_alpha p z ∧
        (0 < bump_function (z / sigma_norm p ⟨p.interaction_range, 0⟩) p.h_alpha →
          0 < phi_alpha p z))
      ∧ (z < sigma_norm p ⟨p.desired_distance, 0⟩ →
        phi_alpha p z ≤ 0 ∧
        (0 < bump_function (z / sigma_norm p ⟨p.interaction_range, 0⟩) p.h_alpha →
          phi_alpha p z < 0)) :=
  ⟨fun h => ⟨phi_alpha_nonneg_above p z h, phi_alpha_pos_above p z h⟩,
    fun h => ⟨phi_alpha_nonpos_below p z h, phi_alpha_neg_below p z h⟩⟩

/-- C3, amended, instance: under the source parameters `phi_alpha 17 > 0` and
`phi_alpha 2 < 0`. -/
theorem phi_alpha_sign_witness :
    0 < phi_alpha default_params 17 ∧ phi_alpha default_params 2 < 0 :=
  ⟨((phi_alpha_sign default_params 17).1 (by linarith [d_alpha_bounds.2])).2
      (bump_positive_default 17 (by norm_num)),
    ((phi_alpha_sign default_params 2).2 (by linarith [d_alpha_bounds.1])).2
      (bump_positive_default 2 (by norm_num))⟩

/-- C4: `phi_alpha` evaluated at `sigma_norm` of the vector
`(desired_distance, 0)` is exactly 0, for every parameter record (in
particular for positive `epsilon`, `desired_distance`, `interaction_range`). -/
theorem phi_alpha_zero_at_equilibrium (p : Parameters) :
    phi_alpha p (sigma_norm p ⟨p.desired_distance, 0⟩) = 0 := by
  unfold phi_alpha
  simp

/-! ## C7, C8, C9: soft boundary containment -/

theorem clamped_velocity_at_rest (q : Vector2) (dt : ℝ) :
    clamped_velocity dt ⟨q, ⟨0, 0⟩, ⟨0, 0⟩⟩ = ⟨0, 0⟩ := by
  rw [clamped_velocity_of_le] <;> norm_num [Vector2.length_axis]

/-- C7, evaluation at the failing input: an agent at rest at `(185, 0)`, 5 units
past the soft threshold, leaves `step 1` with x-velocity `-3.75`, i.e. a
correction of magnitude `5 * (200 - 185) / 20`, where the claimed ramp
`5 * (185 - 180) / 20` gives `1.25`. -/
theorem containment_ramp_is_inverted :
    (step (bare_state [soft_zone_agent]) 1).agents[0]?
        = some ⟨⟨185, 0⟩, ⟨-3.75, 0⟩, ⟨0, 0⟩⟩
      ∧ (5 * (|(185 : ℝ)| - 180) / 20 = 1.25) := by
  constructor
  · rw [step_bare_single]
    simp only [soft_zone_agent, integrate, clamped_velocity_at_rest]
    norm_num
  · norm_num

/-- C8, evaluation at the failing input: an agent at rest at `(220, 0)`, beyond
the hard threshold, leaves `step 1` with x-velocity `+5`: the ramp expression
`(200 - |x|) / 20` is negative there, so the correction that should push the
agent back toward the origin pushes it outward instead. -/
theorem correction_applied_beyond_hard_threshold :
    (step (bare_state [escaped_agent]) 1).agents[0]?
      = some ⟨⟨220, 0⟩, ⟨5, 0⟩, ⟨0, 0⟩⟩ := by
  rw [step_bare_single]
  simp only [escaped_agent, integrate, clamped_velocity_at_rest]
  norm_num

theorem inward_of_band (c v v' : ℝ) (h1 : 180 < |c|) (h2 : |c| < 200)
    (hv : v' = v + (if c > 0 then -1 else 1) * ((200 - |c|) / (200 - 180)) * 5) :
    (v' - v) * c < 0 := by
  have hpush : 0 < (200 - |c|) / (200 - 180) := div_pos (by linarith) (by norm_num)
  rw [hv]
  split_ifs with hc
  · have : 0 < c := hc
    nlinarith
  · have hc0 : c ≤ 0 := not_lt.mp hc
    have hne : c ≠ 0 := by
      intro h0
      rw [h0, abs_zero] at h1
      linarith
    have : c < 0 := lt_of_le_of_ne hc0 hne
    nlinarith

/-- Where the containment block behaves as a containment: in the integrator
(`integrate`, the body of the second loop of `step`) the velocity on an axis
differs from the clamped velocity only when the updated coordinate is past the
soft threshold (`|x| > 180`), and while `180 < |x| < 200` the correction is
non-zero and directed back toward the origin (correction times coordinate is
negative); likewise for `y`. -/
theorem containment_correction_inward (dt : ℝ) (a : Agent) :
    ((integrate dt a).velocity.x ≠ (clamped_velocity dt a).x →
        180 < |(integrate dt a).position.x|)
      ∧ (180 < |(integrate dt a).position.x| → |(integrate dt a).position.x| < 200 →
        ((integrate dt a).velocity.x - (clamped_velocity dt a).x)
          * (integrate dt a).position.x < 0)
      ∧ ((integrate dt a).velocity.y ≠ (clamped_velocity dt a).y →
        180 < |(integrate dt a).position.y|)
      ∧ (180 < |(integrate dt a).position.y| → |(integrate dt a).position.y| < 200 →
        ((integrate dt a).velocity.y - (clamped_velocity dt a).y)
          * (integrate dt a).position.y < 0) := by
  refine ⟨?_, ?_, ?_, ?_⟩
  · intro h
    by_contra hx
    exact h (integrate_velocity_x_inside dt a (not_lt.mp hx))
  · intro h1 h2
    exact inward_of_band _ _ _ h1 h2 (integrate_velocity_x_outside dt a h1)
  · intro h
    by_contra hy
    exact h (integrate_velocity_y_inside dt a (not_lt.mp hy))
  · intro h1 h2
    exact inward_of_band _ _ _ h1 h2 (integrate_velocity_y_outside dt a h1)

theorem integrate_position_at_rest (q : Vector2) (dt : ℝ) :
    (integrate dt ⟨q, ⟨0, 0⟩, ⟨0, 0⟩⟩).position = q := by
  rw [integrate_position, clamped_velocity_at_rest]
  simp

/-- Instance of `containment_correction_inward`: an agent at rest at
`(190, 0)`. -/
theorem containment_correction_inward_witness :
    ((integrate 1 resting_edge_agent).velocity.x - (clamped_velocity 1 resting_edge_agent).x)
      * (integrate 1 resting_edge_agent).position.x < 0 :=
  (containment_correction_inward 1 resting_edge_agent).2.1
    (by
      rw [show resting_edge_agent = ⟨⟨190, 0⟩, ⟨0, 0⟩, ⟨0, 0⟩⟩ from rfl,
        integrate_position_at_rest]
      norm_num)
    (by
      rw [show resting_edge_agent = ⟨⟨190, 0⟩, ⟨0, 0⟩, ⟨0, 0⟩⟩ from rfl,
        integrate_position_at_rest]
      norm_num)

theorem outward_beyond_hard (c v v' : ℝ) (h : 200 ≤ |c|)
    (hv : v' = v + (if c > 0 then -1 else 1) * ((200 - |c|) / (200 - 180)) * 5) :
    0 ≤ (v' - v) * c := by
  have hpush : (200 - |c|) / (200 - 180) ≤ 0 :=
    div_nonpos_of_nonpos_of_nonneg (by linarith) (by norm_num)
  rw [hv]
  split_ifs with hc
  · have : 0 < c := hc
    nlinarith
  · have hc0 : c ≤ 0 := not_lt.mp hc
    nlinarith

/-- Where the containment block fails as a containment: once the updated
coordinate is at or beyond the hard threshold (`|x| ≥ 200`) the correction is
never directed toward the origin (correction times coordinate is `≥ 0`): it
is zero exactly on the threshold and outward beyond it; likewise for `y`. -/
theorem containment_correction_outward (dt : ℝ) (a : Agent) :
    (200 ≤ |(integrate dt a).position.x| →
        0 ≤ ((integrate dt a).velocity.x - (clamped_velocity dt a).x)
          * (integrate dt a).position.x)
      ∧ (200 ≤ |(integrate dt a).position.y| →
        0 ≤ ((integrate dt a).velocity.y - (clamped_velocity dt a).y)
          * (integrate dt a).position.y) := by
  constructor
  · intro h
    exact outward_beyond_hard _ _ _ h
      (integrate_velocity_x_outside dt a (lt_of_lt_of_le (by norm_num) h))
  · intro h
    exact outward_beyond_hard _ _ _ h
      (integrate_velocity_y_outside dt a (lt_of_lt_of_le (by norm_num) h))

/-- C9: in the integrator (`integrate`, the body of the second loop of `step`)
an agent whose updated coordinate on an axis is at or inside the soft threshold
(`|x| ≤ 180`, resp. `|y| ≤ 180`) ends with exactly the clamped velocity
component on that axis: no boundary correction is added. -/
theorem no_correction_inside_soft_threshold (dt : ℝ) (a : Agent) :
    (|(integrate dt a).position.x| ≤ 180 →
        (integrate dt a).velocity.x = (clamped_velocity dt a).x)
      ∧ (|(integrate dt a).position.y| ≤ 180 →
        (integrate dt a).velocity.y = (clamped_velocity dt a).y) :=
  ⟨integrate_velocity_x_inside dt a, integrate_velocity_y_inside dt a⟩

/-- C9, instance: an agent at rest exactly on the soft threshold, at
`(180, -180)`. -/
theorem no_correction_inside_soft_threshold_witness :
    (integrate 1 ⟨⟨180, -180⟩, ⟨0, 0⟩, ⟨0, 0⟩⟩).velocity.x
        = (clamped_velocity 1 ⟨⟨180, -180⟩, ⟨0, 0⟩, ⟨0, 0⟩⟩).x
      ∧ (integrate 1 ⟨⟨180, -180⟩, ⟨0, 0⟩, ⟨0, 0⟩⟩).velocity.y
        = (clamped_velocity 1 ⟨⟨180, -180⟩, ⟨0, 0⟩, ⟨0, 0⟩⟩).y :=
  ⟨(no_correction_inside_soft_threshold 1 ⟨⟨180, -180⟩, ⟨0, 0⟩, ⟨0, 0⟩⟩).1
      (by rw [integrate_position_at_rest]; norm_num),
    (no_correction_inside_soft_threshold 1 ⟨⟨180, -180⟩, ⟨0, 0⟩, ⟨0, 0⟩⟩).2
      (by rw [integrate_position_at_rest]; norm_num)⟩

/-! ## C10: projection onto a disc obstacle -/

theorem project_disc_far (a : Agent) (o : Obstacle) (hdisc : o.is_wall = false)
    (hD : 0.1 < (o.position - a.position).length) :
    (project_to_obstacle a o).position
      = o.position - (o.position - a.position).normalized * o.radius := by
  unfold project_to_obstacle
  simp only [hdisc, Bool.false_eq_true, if_false]
  rw [if_pos hD]

theorem project_disc_near (a : Agent) (o : Obstacle) (hdisc : o.is_wall = false)
    (hD : (o.position - a.position).length ≤ 0.1) :
    (project_to_obstacle a o).position = o.position + ⟨o.radius, 0⟩ := by
  unfold project_to_obstacle
  simp only [hdisc, Bool.false_eq_true, if_false]
  rw [if_neg (not_lt.mpr hD)]

/-- C10, counterexample: for the agent at the origin and the disc of radius
`0.01` centred at `(0.05, 0)` (centre distance `0.05 > radius`), the virtual
agent is placed at `(0.06, 0)`: beyond the centre as seen from the agent, at
distance `0.06` from the agent instead of `0.05 - 0.01`. -/
theorem disc_projection_degenerate_branch :
    tiny_disc.radius < (tiny_disc.position - origin_agent.position).length
      ∧ (project_to_obstacle origin_agent tiny_disc).position = ⟨0.06, 0⟩
      ∧ ((project_to_obstacle origin_agent tiny_disc).position
          - origin_agent.position).length
        ≠ (tiny_disc.position - origin_agent.position).length - tiny_disc.radius := by
  have hlen : (tiny_disc.position - origin_agent.position).length = 0.05 := by
    show Vector2.length (⟨0.05, 0⟩ - ⟨0, 0⟩) = 0.05
    norm_num [Vector2.length_axis]
  have hpos : (project_to_obstacle origin_agent tiny_disc).position = ⟨0.06, 0⟩ := by
    rw [project_disc_near _ _ rfl (by rw [hlen]; norm_num)]
    show (⟨0.05, 0⟩ : Vector2) + ⟨0.01, 0⟩ = ⟨0.06, 0⟩
    ext <;> norm_num
  refine ⟨?_, hpos, ?_⟩
  · rw [hlen]
    show (0.01 : ℝ) < 0.05
    norm_num
  · rw [hpos, hlen]
    show Vector2.length (⟨0.06, 0⟩ - ⟨0, 0⟩) ≠ 0.05 - 0.01
    rw [Vector2.mk_sub_mk, sub_zero, sub_zero, Vector2.length_axis,
      abs_of_nonneg (by norm_num)]
    norm_num

/-- Length of the offset from the centre to a point placed `r` along a unit
direction. -/
theorem length_offset_unit (o u : Vector2) (r : ℝ) (hr : 0 ≤ r)
    (hu : u.x * u.x + u.y * u.y = 1) : ((o - u * r) - o).length = r := by
  unfold Vector2.length
  simp only [Vector2.sub_x, Vector2.sub_y, Vector2.mul_x, Vector2.mul_y]
  rw [show (o.x - u.x * r - o.x) * (o.x - u.x * r - o.x)
      + (o.y - u.y * r - o.y) * (o.y - u.y * r - o.y)
      = (u.x * u.x + u.y * u.y) * (r * r) by ring, hu, one_mul]
  exact Real.sqrt_mul_self hr

theorem unit_of_far (c : Vector2) (h : 0.1 < c.length) :
    (c.x / c.length) * (c.x / c.length) + (c.y / c.length) * (c.y / c.length) = 1 := by
  have hpos : 0 < c.length := lt_trans (by norm_num) h
  have hne : c.length ≠ 0 := ne_of_gt hpos
  rw [show c.x / c.length * (c.x / c.length) + c.y / c.length * (c.y / c.length)
      = (c.x * c.x + c.y * c.y) / (c.length * c.length) by field_simp]
  rw [← c.length_mul_self, div_self (mul_ne_zero hne hne)]

/-- C10, amended: for every agent and every disc obstacle with radius `≥ 0`
whose centre is at distance `D > radius` and `D > 0.1` from the agent,
`project_to_obstacle` returns a virtual agent whose position is at distance
exactly `radius` from the centre, lies on the segment from the centre to the
agent, is at distance `D - radius` from the agent, and is the boundary point
closest to the agent. -/
theorem disc_projection_closest_point (a : Agent) (o : Obstacle)
    (hdisc : o.is_wall = false) (hr : 0 ≤ o.radius)
    (hD : 0.1 < (o.position - a.position).length)
    (hrD : o.radius < (o.position - a.position).length) :
    ((project_to_obstacle a o).position - o.position).length = o.radius
      ∧ (∃ t : ℝ, 0 ≤ t ∧ t ≤ 1 ∧
          (project_to_obstacle a o).position = o.position + (a.position - o.position) * t)
      ∧ ((project_to_obstacle a o).position - a.position).length
          = (o.position - a.position).length - o.radius
      ∧ (∀ q : Vector2, (q - o.position).length = o.radius →
          ((project_to_obstacle a o).position - a.position).length
            ≤ (q - a.position).length) := by
  have hpos : 0 < (o.position - a.position).length := lt_trans (by norm_num) hD
  have hne : (o.position - a.position).length ≠ 0 := ne_of_gt hpos
  have hP := project_disc_far a o hdisc hD
  rw [Vector2.normalized_of_pos _ hD] at hP
  have hdist : ((project_to_obstacle a o).position - a.position).length
      = (o.position - a.position).length - o.radius := by
    have e : (project_to_obstacle a o).position - a.position
        = (o.position - a.position)
          * (1 - o.radius / (o.position - a.position).length) := by
      rw [hP]
      ext
      · simp only [Vector2.sub_x, Vector2.mul_x]
        field_simp
        ring
      · simp only [Vector2.sub_y, Vector2.mul_y]
        field_simp
        ring
    rw [e, Vector2.length_mul, abs_of_nonneg]
    · field_simp
    · rw [sub_nonneg, div_le_one hpos]
      exact hrD.le
  refine ⟨?_, ?_, hdist, ?_⟩
  · rw [hP]
    exact length_offset_unit _ _ _ hr (unit_of_far _ hD)
  · refine ⟨o.radius / (o.position - a.position).length, div_nonneg hr hpos.le, ?_, ?_⟩
    · rw [div_le_one hpos]
      exact hrD.le
    · rw [hP]
      ext
      · simp only [Vector2.sub_x, Vector2.mul_x, Vector2.add_x]
        field_simp
        ring
      · simp only [Vector2.sub_y, Vector2.mul_y, Vector2.add_y]
        field_simp
        ring
  · intro q hq
    rw [hdist]
    have htri := Vector2.length_add_le (o.position - q) (q - a.position)
    have e : (o.position - q) + (q - a.position) = o.position - a.position := by
      ext <;> simp
    rw [e, Vector2.length_sub_comm o.position q, hq] at htri
    linarith

/-- C10, amended, instance: the agent at the origin and the disc of radius 4
centred at `(10, 0)`. -/
theorem disc_projection_closest_point_witness :
    ((project_to_obstacle origin_agent plain_disc).position - plain_disc.position).length
        = plain_disc.radius
      ∧ (∃ t : ℝ, 0 ≤ t ∧ t ≤ 1 ∧
          (project_to_obstacle origin_agent plain_disc).position
            = plain_disc.position + (origin_agent.position - plain_disc.position) * t)
      ∧ ((project_to_obstacle origin_agent plain_disc).position
            - origin_agent.position).length
          = (plain_disc.position - origin_agent.position).length - plain_disc.radius
      ∧ (∀ q : Vector2, (q - plain_disc.position).length = plain_disc.radius →
          ((project_to_obstacle origin_agent plain_disc).position
              - origin_agent.position).length
            ≤ (q - origin_agent.position).length) :=
  have hlen : (plain_disc.position - origin_agent.position).length = 10 := by
    show Vector2.length (⟨10, 0⟩ - ⟨0, 0⟩) = 10
    norm_num [Vector2.length_axis]
  disc_projection_closest_point origin_agent plain_disc rfl
    (by show (0 : ℝ) ≤ 4; norm_num)
    (by rw [hlen]; norm_num)
    (by rw [hlen]; show (4 : ℝ) < 10; norm_num)

/-! ## C11: velocity of the virtual agent of a disc -/

/-- C11: for a disc obstacle whose centre is at distance `D > 0.1` from the
agent, with `d` the unit vector from the agent to the centre, the velocity of
the virtual agent is `(radius / D) * (v - (v . d) d)`, and its dot product with
`d` is 0. -/
theorem disc_projection_velocity_tangential (a : Agent) (o : Obstacle)
    (hdisc : o.is_wall = false) (hD : 0.1 < (o.position - a.position).length) :
    (project_to_obstacle a o).velocity
        = (a.velocity - radial_direction a o * a.velocity.dot (radial_direction a o))
          * (o.radius / (o.position - a.position).length)
      ∧ (project_to_obstacle a o).velocity.dot (radial_direction a o) = 0 := by
  have hv : (project_to_obstacle a o).velocity
      = (a.velocity - radial_direction a o * a.velocity.dot (radial_direction a o))
        * (o.radius / (o.position - a.position).length) := by
    unfold project_to_obstacle
    simp only [hdisc, Bool.false_eq_true, if_false]
    rw [if_pos hD, Vector2.normalized_of_pos _ hD]
    rfl
  refine ⟨hv, ?_⟩
  have hu := unit_of_far _ hD
  rw [hv]
  unfold Vector2.dot radial_direction
  simp only [Vector2.sub_x, Vector2.sub_y, Vector2.mul_x, Vector2.mul_y]
  simp only [Vector2.sub_x, Vector2.sub_y] at hu
  linear_combination (o.radius / (o.position - a.position).length)
    * (-(a.velocity.x * ((o.position.x - a.position.x) / (o.position - a.position).length)
      + a.velocity.y * ((o.position.y - a.position.y) / (o.position - a.position).length)))
    * hu

/-- C11, instance: the agent at the origin with velocity `(1, 1)` and the disc
of radius 4 centred at `(10, 0)`. -/
theorem disc_projection_velocity_tangential_witness :
    (project_to_obstacle origin_agent plain_disc).velocity
        = (origin_agent.velocity
            - radial_direction origin_agent plain_disc
              * origin_agent.velocity.dot (radial_direction origin_agent plain_disc))
          * (plain_disc.radius / (plain_disc.position - origin_agent.position).length)
      ∧ (project_to_obstacle origin_agent plain_disc).velocity.dot
          (radial_direction origin_agent plain_disc) = 0 :=
  disc_projection_velocity_tangential origin_agent plain_disc rfl
    (by
      show (0.1 : ℝ) < Vector2.length (⟨10, 0⟩ - ⟨0, 0⟩)
      norm_num [Vector2.length_axis])

/-! ## C12: the virtual-agent list rebuilt by `step` -/

theorem beta_scan_eq (p : Parameters) (agent : Agent) :
    ∀ (obstacles : List Obstacle) (acc : List BetaAgent),
      beta_scan p agent acc obstacles = acc ++ agent_projections p obstacles agent := by
  intro obstacles
  induction obstacles with
  | nil => intro acc; simp [beta_scan, agent_projections]
  | cons o rest ih =>
    intro acc
    simp only [beta_scan]
    split_ifs with h
    · rw [ih]
      simp [agent_projections, List.filter_cons, h]
    · rw [ih]
      simp [agent_projections, List.filter_cons, h]

theorem beta_collect_eq (p : Parameters) (obstacles : List Obstacle) :
    ∀ (agents : List Agent) (acc : List BetaAgent),
      beta_collect p obstacles acc agents
        = acc ++ agents.flatMap (agent_projections p obstacles) := by
  intro agents
  induction agents with
  | nil => intro acc; simp [beta_collect]
  | cons a rest ih =>
    intro acc
    simp only [beta_collect]
    rw [ih, beta_scan_eq]
    simp

/-- C12: after `step dt` the virtual-agent list is exactly the list of
`project_to_obstacle a o`, in agent-major then obstacle order, over the pairs
(agent `a`, obstacle `o`) of the pre-step state with
`|o.position - a.position| < obstacle_range + o.radius`; the previously stored
list does not occur in the result. -/
theorem step_rebuilds_beta_agents (s : FlockSimulation) (dt : ℝ) :
    (step s dt).beta_agents
      = s.agents.flatMap (fun a =>
          (s.obstacles.filter (fun o =>
            decide ((o.position - a.position).length < s.params.obstacle_range + o.radius))).map
            (project_to_obstacle a)) := by
  show beta_collect s.params s.obstacles [] s.agents = _
  rw [beta_collect_eq]
  rfl

/-! ## C13: the beta action function -/

theorem self_le_action_sqrt (t : ℝ) : t ≤ Real.sqrt (1 + t * t) :=
  le_trans (le_abs_self t) (Real.abs_le_sqrt (by nlinarith))

/-- C13: `phi_beta z ≤ 0` for every real `z` and every parameter record (in
particular for `epsilon > 0`, `desired_distance > 0` and `0 < h_beta < 1`). -/
theorem phi_beta_nonpos (p : Parameters) (z : ℝ) : phi_beta p z ≤ 0 := by
  unfold phi_beta
  apply mul_nonpos_of_nonneg_of_nonpos (bump_function_nonneg _ _)
  rw [sub_nonpos, div_le_one (action_sqrt_pos _)]
  exact self_le_action_sqrt _

/-! ## C14: the sigma-norm -/

theorem length_zero_vec : Vector2.length ⟨0, 0⟩ = 0 := by
  rw [Vector2.length_axis, abs_zero]

theorem length_neg (z : Vector2) : Vector2.length ⟨-z.x, -z.y⟩ = z.length := by
  unfold Vector2.length
  congr 1
  ring

theorem sigma_norm_strict_mono (p : Parameters) (hε : 0 < p.epsilon) (z1 z2 : Vector2)
    (h : z1.length < z2.length) : sigma_norm p z1 < sigma_norm p z2 := by
  unfold sigma_norm
  have h1 := z1.length_nonneg
  have hsq : z1.length * z1.length < z2.length * z2.length :=
    mul_self_lt_mul_self h1 h
  have harg : 1 + p.epsilon * z1.length * z1.length < 1 + p.epsilon * z2.length * z2.length := by
    nlinarith
  have hroot := Real.sqrt_lt_sqrt (by nlinarith [mul_self_nonneg z1.length]) harg
  have hinv : 0 < 1 / p.epsilon := one_div_pos.mpr hε
  exact mul_lt_mul_of_pos_left (by linarith) hinv

theorem sigma_norm_nonneg (p : Parameters) (hε : 0 < p.epsilon) (z : Vector2) :
    0 ≤ sigma_norm p z := by
  unfold sigma_norm
  have hroot : 1 ≤ Real.sqrt (1 + p.epsilon * z.length * z.length) := by
    rw [Real.le_sqrt' (by norm_num)]
    nlinarith [mul_nonneg hε.le (mul_self_nonneg z.length)]
  exact mul_nonneg (one_div_pos.mpr hε).le (by linarith)

/-- C14: for `epsilon > 0`, `sigma_norm` is 0 at the zero vector, non-negative
everywhere, strictly increasing in `|z|`, and depends on `|z|` alone; in
particular `sigma_norm z = sigma_norm (-z)`. -/
theorem sigma_norm_properties (p : Parameters) (hε : 0 < p.epsilon) :
    sigma_norm p ⟨0, 0⟩ = 0
      ∧ (∀ z : Vector2, 0 ≤ sigma_norm p z)
      ∧ (∀ z1 z2 : Vector2, z1.length < z2.length → sigma_norm p z1 < sigma_norm p z2)
      ∧ (∀ z1 z2 : Vector2, z1.length = z2.length → sigma_norm p z1 = sigma_norm p z2)
      ∧ (∀ z : Vector2, sigma_norm p ⟨-z.x, -z.y⟩ = sigma_norm p z) := by
  refine ⟨?_, sigma_norm_nonneg p hε, sigma_norm_strict_mono p hε, sigma_norm_congr p, ?_⟩
  · unfold sigma_norm
    simp [length_zero_vec]
  · intro z
    exact sigma_norm_congr p _ _ (length_neg z)

/-- C14, instance: the source parameters (`epsilon = 0.1`). -/
theorem sigma_norm_properties_witness :
    sigma_norm default_params ⟨0, 0⟩ = 0
      ∧ (∀ z : Vector2, 0 ≤ sigma_norm default_params z)
      ∧ (∀ z1 z2 : Vector2, z1.length < z2.length →
          sigma_norm default_params z1 < sigma_norm default_params z2)
      ∧ (∀ z1 z2 : Vector2, z1.length = z2.length →
          sigma_norm default_params z1 = sigma_norm default_params z2)
      ∧ (∀ z : Vector2, sigma_norm default_params ⟨-z.x, -z.y⟩ = sigma_norm default_params z) :=
  sigma_norm_properties default_params (by show (0 : ℝ) < 0.1; norm_num)

/-! ## C15, C16: the degenerate guards and sigma-epsilon -/

theorem sigma_epsilon_small (p : Parameters) (z : Vector2) (h : z.length < 1e-10) :
    sigma_epsilon p z = ⟨0, 0⟩ := by
  unfold sigma_epsilon
  simp only [h, if_true]

theorem sigma_epsilon_large (p : Parameters) (z : Vector2) (h : ¬ z.length < 1e-10) :
    sigma_epsilon p z = z * (1 / Real.sqrt (1 + p.epsilon * z.length * z.length)) := by
  unfold sigma_epsilon
  simp only [h, if_false]

theorem normalized_small (z : Vector2) (h : z.length < 1e-10) : z.normalized = ⟨0, 0⟩ := by
  unfold Vector2.normalized
  simp only [h, if_true]

theorem normalized_large (z : Vector2) (h : ¬ z.length < 1e-10) :
    z.normalized = ⟨z.x / z.length, z.y / z.length⟩ := by
  unfold Vector2.normalized
  simp only [h, if_false]

theorem sigma_divisor_pos (p : Parameters) (hε : 0 ≤ p.epsilon) (z : Vector2) :
    0 < Real.sqrt (1 + p.epsilon * z.length * z.length) := by
  apply Real.sqrt_pos.mpr
  have := mul_nonneg hε (mul_self_nonneg z.length)
  nlinarith

/-- C15: for every vector `z` with `|z| < 1e-10` (the zero vector included)
`sigma_epsilon z` and `normalized z` are the zero vector; for every other `z`
both are computed by their quotient formula, whose divisor
(`sqrt (1 + epsilon |z|^2)`, resp. `|z|`) is strictly positive (for
`epsilon ≥ 0`, which the configured `0.1` satisfies). -/
theorem degenerate_guards (p : Parameters) (hε : 0 ≤ p.epsilon) (z : Vector2) :
    (z.length < 1e-10 → sigma_epsilon p z = ⟨0, 0⟩ ∧ z.normalized = ⟨0, 0⟩)
      ∧ (¬ z.length < 1e-10 →
        0 < Real.sqrt (1 + p.epsilon * z.length * z.length)
          ∧ sigma_epsilon p z = z * (1 / Real.sqrt (1 + p.epsilon * z.length * z.length))
          ∧ 0 < z.length
          ∧ z.normalized = ⟨z.x / z.length, z.y / z.length⟩) := by
  refine ⟨fun h => ⟨sigma_epsilon_small p z h, normalized_small z h⟩, fun h => ?_⟩
  refine ⟨sigma_divisor_pos p hε z, sigma_epsilon_large p z h, ?_, normalized_large z h⟩
  exact lt_of_lt_of_le (by norm_num) (not_lt.mp h)

/-- C15, instance: the zero vector and the vector `(3, 4)` under the source
parameters. -/
theorem degenerate_guards_witness :
    (sigma_epsilon default_params ⟨0, 0⟩ = ⟨0, 0⟩ ∧ Vector2.normalized ⟨0, 0⟩ = ⟨0, 0⟩)
      ∧ (0 < Real.sqrt (1 + default_params.epsilon * Vector2.length ⟨3, 4⟩
            * Vector2.length ⟨3, 4⟩)
          ∧ sigma_epsilon default_params ⟨3, 4⟩
            = (⟨3, 4⟩ : Vector2) * (1 / Real.sqrt (1 + default_params.epsilon
                * Vector2.length ⟨3, 4⟩ * Vector2.length ⟨3, 4⟩))
          ∧ 0 < Vector2.length ⟨3, 4⟩
          ∧ Vector2.normalized ⟨3, 4⟩
            = ⟨3 / Vector2.length ⟨3, 4⟩, 4 / Vector2.length ⟨3, 4⟩⟩) :=
  ⟨(degenerate_guards default_params (by show (0 : ℝ) ≤ 0.1; norm_num) ⟨0, 0⟩).1
      (by rw [length_zero_vec]; norm_num),
    (degenerate_guards default_params (by show (0 : ℝ) ≤ 0.1; norm_num) ⟨3, 4⟩).2
      (by rw [length_three_four]; norm_num)⟩

/-- C16, counterexample: with the source parameters `sigma_epsilon (10, 0)` is
`(10 / sqrt 11, 0)`, whose length exceeds 3, hence 1. -/
theorem sigma_epsilon_longer_than_one :
    sigma_epsilon default_params ⟨10, 0⟩ = ⟨10 * (1 / Real.sqrt 11), 0⟩
      ∧ 3 < (sigma_epsilon default_params ⟨10, 0⟩).length := by
  have hlen : Vector2.length ⟨10, 0⟩ = 10 := by
    rw [Vector2.length_axis]
    exact abs_of_nonneg (by norm_num)
  have hval : sigma_epsilon default_params ⟨10, 0⟩ = ⟨10 * (1 / Real.sqrt 11), 0⟩ := by
    rw [sigma_epsilon_large _ _ (by rw [hlen]; norm_num), hlen]
    show (⟨10, 0⟩ : Vector2) * (1 / Real.sqrt (1 + 0.1 * 10 * 10)) = _
    rw [show (1 : ℝ) + 0.1 * 10 * 10 = 11 by norm_num]
    simp
  refine ⟨hval, ?_⟩
  have hroot : Real.sqrt 11 < 10 / 3 := by
    rw [Real.sqrt_lt (by norm_num) (by norm_num)]
    norm_num
  have hpos : 0 < Real.sqrt 11 := Real.sqrt_pos.mpr (by norm_num)
  rw [hval, Vector2.length_axis, abs_of_nonneg (by positivity), mul_one_div,
    lt_div_iff₀ hpos]
  linarith

/-- C16, amended: with the source parameters (`epsilon = 0.1`), for every
vector `z` (non-zero or not) `sigma_epsilon z` is a non-negative scalar
multiple of `z`, and its length is strictly less than `1 / sqrt epsilon`, that
is `sqrt 10`. -/
theorem sigma_epsilon_parallel_bounded (z : Vector2) :
    (∃ c : ℝ, 0 ≤ c ∧ sigma_epsilon default_params z = z * c)
      ∧ (sigma_epsilon default_params z).length < Real.sqrt 10 := by
  have h10 : 0 < Real.sqrt 10 := Real.sqrt_pos.mpr (by norm_num)
  by_cases h : z.length < 1e-10
  · rw [sigma_epsilon_small _ _ h]
    refine ⟨⟨0, le_refl 0, by simp⟩, ?_⟩
    rw [length_zero_vec]
    exact h10
  · have hdiv := sigma_divisor_pos default_params (by show (0 : ℝ) ≤ 0.1; norm_num) z
    rw [sigma_epsilon_large _ _ h]
    refine ⟨⟨_, (one_div_pos.mpr hdiv).le, rfl⟩, ?_⟩
    rw [Vector2.length_mul, abs_of_nonneg (one_div_pos.mpr hdiv).le, mul_one_div,
      div_lt_iff₀ hdiv, ← Real.sqrt_mul (by norm_num)]
    apply Real.lt_sqrt_of_sq_lt
    have hL := z.length_nonneg
    show z.length ^ 2 < 10 * (1 + 0.1 * z.length * z.length)
    nlinarith

/-! ## C17, C18: the bump function -/

theorem bump_function_le_one (z h : ℝ) : bump_function z h ≤ 1 := by
  unfold bump_function
  split_ifs
  · exact le_refl 1
  · have := Real.cos_le_one (Real.pi * (z - h) / (1 - h))
    norm_num
    linarith
  · exact zero_le_one

/-- C17: for every threshold `h < 1` (in particular `0 < h < 1`) and every real
`z`, `bump_function z h = 1` if `z < h`, `bump_function z h = 0` if `z ≥ 1`,
and `0 ≤ bump_function z h ≤ 1` (in between and everywhere else). -/
theorem bump_function_profile (h : ℝ) (h1 : h < 1) (z : ℝ) :
    (z < h → bump_function z h = 1)
      ∧ (1 ≤ z → bump_function z h = 0)
      ∧ 0 ≤ bump_function z h ∧ bump_function z h ≤ 1 := by
  refine ⟨fun hz => ?_, fun hz => ?_, bump_function_nonneg z h, bump_function_le_one z h⟩
  · unfold bump_function
    rw [if_pos hz]
  · unfold bump_function
    rw [if_neg (not_lt.mpr (le_trans h1.le hz)), if_neg (not_lt.mpr hz)]

/-- C17, instance: the alpha threshold `h = 0.2` at `z = 0.1`, `z = 2` and
`z = 0.5`. -/
theorem bump_function_profile_witness :
    bump_function 0.1 0.2 = 1 ∧ bump_function 2 0.2 = 0
      ∧ 0 ≤ bump_function 0.5 0.2 ∧ bump_function 0.5 0.2 ≤ 1 :=
  ⟨(bump_function_profile 0.2 (by norm_num) 0.1).1 (by norm_num),
    (bump_function_profile 0.2 (by norm_num) 2).2.1 (by norm_num),
    (bump_function_profile 0.2 (by norm_num) 0.5).2.2⟩

/-- The bump function written without case distinction: the cosine taper of
the argument clamped to the unit interval. -/
theorem bump_function_eq_clamped (h : ℝ) (h1 : h < 1) (z : ℝ) :
    bump_function z h
      = 0.5 * (1 + Real.cos (Real.pi * max 0 (min 1 ((z - h) / (1 - h))))) := by
  have hh : 0 < 1 - h := by linarith
  unfold bump_function
  split_ifs with hz hz1
  · have hq : (z - h) / (1 - h) ≤ 0 := div_nonpos_of_nonpos_of_nonneg (by linarith) hh.le
    rw [min_eq_right (le_trans hq zero_le_one), max_eq_left hq, mul_zero, Real.cos_zero]
    norm_num
  · have hq0 : 0 ≤ (z - h) / (1 - h) := div_nonneg (by linarith) hh.le
    have hq1 : (z - h) / (1 - h) ≤ 1 := by
      rw [div_le_one hh]
      linarith
    rw [min_eq_right hq1, max_eq_right hq0, mul_div_assoc]
  · have hq1 : 1 ≤ (z - h) / (1 - h) := by
      rw [le_div_iff₀ hh]
      linarith
    rw [min_eq_left hq1, max_eq_right zero_le_one, mul_one, Real.cos_pi]
    norm_num

theorem bump_function_continuous (h : ℝ) (h1 : h < 1) :
    Continuous (fun z => bump_function z h) := by
  have e : (fun z => bump_function z h)
      = fun z => 0.5 * (1 + Real.cos (Real.pi * max 0 (min 1 ((z - h) / (1 - h))))) :=
    funext (bump_function_eq_clamped h h1)
  rw [e]
  fun_prop

/-- C18: for `h < 1` (in particular `0 < h < 1`) the function
`z ↦ bump_function z h` is continuous at `z = h` and at `z = 1`; the cosine
branch takes the value 1 at `z = h` and the function tends to 0, its value at
1, as `z` tends to 1 from below. -/
theorem bump_function_continuous_at_joints (h : ℝ) (h1 : h < 1) :
    ContinuousAt (fun z => bump_function z h) h
      ∧ ContinuousAt (fun z => bump_function z h) 1
      ∧ bump_function h h = 1
      ∧ 0.5 * (1 + Real.cos (Real.pi * (h - h) / (1 - h))) = 1
      ∧ bump_function 1 h = 0
      ∧ Filter.Tendsto (fun z => bump_function z h) (nhdsWithin 1 (Set.Iio 1)) (nhds 0) := by
  have hc := bump_function_continuous h h1
  have hone : bump_function 1 h = 0 := by
    unfold bump_function
    rw [if_neg (not_lt.mpr h1.le), if_neg (lt_irrefl 1)]
  have hcos : 0.5 * (1 + Real.cos (Real.pi * (h - h) / (1 - h))) = 1 := by
    rw [sub_self, mul_zero, zero_div, Real.cos_zero]
    norm_num
  refine ⟨hc.continuousAt, hc.continuousAt, ?_, hcos, hone, ?_⟩
  · unfold bump_function
    rw [if_neg (lt_irrefl h), if_pos h1, hcos]
  · have ht : Filter.Tendsto (fun z => bump_function z h) (nhds 1) (nhds (bump_function 1 h)) :=
      hc.continuousAt
    rw [hone] at ht
    exact ht.mono_left nhdsWithin_le_nhds

/-- C18, instance: the alpha threshold `h = 0.2`. -/
theorem bump_function_continuous_at_joints_witness :
    ContinuousAt (fun z => bump_function z 0.2) 0.2
      ∧ ContinuousAt (fun z => bump_function z 0.2) 1
      ∧ bump_function 0.2 0.2 = 1
      ∧ 0.5 * (1 + Real.cos (Real.pi * (0.2 - 0.2) / (1 - 0.2))) = 1
      ∧ bump_function 1 0.2 = 0
      ∧ Filter.Tendsto (fun z => bump_function z 0.2) (nhdsWithin 1 (Set.Iio 1)) (nhds 0) :=
  bump_function_continuous_at_joints 0.2 (by norm_num)

/-! ## C19: two agents 20 apart -/

theorem integrate_at_rest (q : Vector2) (dt : ℝ) (hx : |q.x| ≤ 180) (hy : |q.y| ≤ 180) :
    integrate dt ⟨q, ⟨0, 0⟩, ⟨0, 0⟩⟩ = ⟨q, ⟨0, 0⟩, ⟨0, 0⟩⟩ := by
  have hp := integrate_position_at_rest q dt
  have hvx := integrate_velocity_x_inside dt ⟨q, ⟨0, 0⟩, ⟨0, 0⟩⟩ (by rw [hp]; exact hx)
  have hvy := integrate_velocity_y_inside dt ⟨q, ⟨0, 0⟩, ⟨0, 0⟩⟩ (by rw [hp]; exact hy)
  rw [clamped_velocity_at_rest] at hvx hvy
  have hv : (integrate dt ⟨q, ⟨0, 0⟩, ⟨0, 0⟩⟩).velocity = ⟨0, 0⟩ := Vector2.ext hvx hvy
  have ha := integrate_acceleration dt ⟨q, ⟨0, 0⟩, ⟨0, 0⟩⟩
  cases hi : integrate dt ⟨q, ⟨0, 0⟩, ⟨0, 0⟩⟩ with
  | mk position velocity acceleration =>
    rw [hi] at hp hv ha
    simp only at hp hv ha
    rw [hp, hv, ha]

theorem facing_state_far (i j : ℕ) (a b : Agent) (hij : j ≠ i)
    (ha : facing_state.agents[i]? = some a) (hb : facing_state.agents[j]? = some b) :
    facing_state.params.interaction_range ≤ (b.position - a.position).length := by
  have h0 : facing_state.agents[0]? = some facing_left := rfl
  have h1 : facing_state.agents[1]? = some facing_right := rfl
  have hnone : ∀ k, facing_state.agents[k + 2]? = none := fun _ => rfl
  have hlr : facing_state.params.interaction_range
      ≤ (facing_right.position - facing_left.position).length := by
    show (8.4 : ℝ) ≤ Vector2.length (⟨10, 0⟩ - ⟨-10, 0⟩)
    norm_num [Vector2.length_axis]
  match i, j, hij, ha, hb with
  | 0, 0, hij, _, _ => exact absurd rfl hij
  | 1, 1, hij, _, _ => exact absurd rfl hij
  | 0, 1, _, ha, hb =>
    rw [h0] at ha
    rw [h1] at hb
    rw [← Option.some.inj ha, ← Option.some.inj hb]
    exact hlr
  | 1, 0, _, ha, hb =>
    rw [h1] at ha
    rw [h0] at hb
    rw [← Option.some.inj ha, ← Option.some.inj hb, Vector2.length_sub_comm]
    exact hlr
  | i + 2, _, _, ha, _ =>
    rw [hnone] at ha
    exact absurd ha (by simp)
  | _, j + 2, _, _, hb =>
    rw [hnone] at hb
    exact absurd hb (by simp)

theorem facing_state_step_agents (dt : ℝ) :
    (step facing_state dt).agents = [facing_left, facing_right] := by
  have hbeta : ∀ b ∈ (update_beta_agents facing_state).beta_agents,
      (update_beta_agents facing_state).params.obstacle_range
        ≤ (b.position - facing_left.position).length := by
    intro b hb
    have : (update_beta_agents facing_state).beta_agents = [] := rfl
    rw [this] at hb
    simp at hb
  have hbeta2 : ∀ b ∈ (update_beta_agents facing_state).beta_agents,
      (update_beta_agents facing_state).params.obstacle_range
        ≤ (b.position - facing_right.position).length := by
    intro b hb
    have : (update_beta_agents facing_state).beta_agents = [] := rfl
    rw [this] at hb
    simp at hb
  have hl : accelerate (update_beta_agents facing_state) facing_state.agents 0 facing_left
      = facing_left :=
    accelerate_isolated (update_beta_agents facing_state) facing_state.agents 0 facing_left rfl
      (fun j b hj hb => facing_state_far 0 j facing_left b hj rfl hb) hbeta
  have hr : accelerate (update_beta_agents facing_state) facing_state.agents 1 facing_right
      = facing_right :=
    accelerate_isolated (update_beta_agents facing_state) facing_state.agents 1 facing_right rfl
      (fun j b hj hb => facing_state_far 1 j facing_right b hj rfl hb) hbeta2
  have hil : integrate dt facing_left = facing_left :=
    integrate_at_rest ⟨-10, 0⟩ dt (by norm_num) (by norm_num)
  have hir : integrate dt facing_right = facing_right :=
    integrate_at_rest ⟨10, 0⟩ dt (by norm_num) (by norm_num)
  rw [step_agents]
  show List.map (integrate dt)
    (accel_map (update_beta_agents facing_state) facing_state.agents 0
      [facing_left, facing_right]) = _
  simp only [accel_map, List.map_cons, List.map_nil, zero_add, hl, hr, hil, hir]

/-- C19, counterexample: in the two-agent scenario the agents have not moved
toward each other after `step 0.1`: the first agent's x-coordinate is not
greater than -10, the second's is not less than 10, and their distance is not
less than 20. -/
theorem facing_agents_do_not_approach :
    ∃ a0 a1 : Agent, (step facing_state 0.1).agents = [a0, a1]
      ∧ ¬ (-10 < a0.position.x) ∧ ¬ (a1.position.x < 10)
      ∧ ¬ ((a1.position - a0.position).length < 20) := by
  refine ⟨facing_left, facing_right, facing_state_step_agents 0.1, ?_, ?_, ?_⟩
  · show ¬ ((-10 : ℝ) < -10)
    norm_num
  · show ¬ ((10 : ℝ) < 10)
    norm_num
  · show ¬ (Vector2.length (⟨10, 0⟩ - ⟨-10, 0⟩) < 20)
    norm_num [Vector2.length_axis]

/-- C19, amended: in the two-agent scenario (agents at rest at `(-10, 0)` and
`(10, 0)`, navigation disabled, no obstacles) `step 0.1` leaves both agents
exactly as they were, at distance 20 from each other, which is not below
`interaction_range`. -/
theorem facing_agents_stay_put :
    (step facing_state 0.1).agents
        = [⟨⟨-10, 0⟩, ⟨0, 0⟩, ⟨0, 0⟩⟩, ⟨⟨10, 0⟩, ⟨0, 0⟩, ⟨0, 0⟩⟩]
      ∧ Vector2.length ((⟨10, 0⟩ : Vector2) - ⟨-10, 0⟩) = 20
      ∧ facing_state.params.interaction_range ≤ 20 := by
  refine ⟨facing_state_step_agents 0.1, ?_, ?_⟩
  · norm_num [Vector2.length_axis]
  · show (8.4 : ℝ) ≤ 20
    norm_num

/-! ## C20: what `step` leaves alone -/

theorem accel_map_length (s : FlockSimulation) (orig : List Agent) :
    ∀ (l : List Agent) (k : ℕ), (accel_map s orig k l).length = l.length := by
  intro l
  induction l with
  | nil => intro k; rfl
  | cons a rest ih =>
    intro k
    simp only [accel_map, List.length_cons, ih]

/-- C20: for every state and `dt`, `step dt` leaves the obstacle list, the
navigation target and its velocity, the navigation-enabled flag, the display
flags, the run state and the parameters unchanged, and preserves the number of
agents. -/
theorem step_frame (s : FlockSimulation) (dt : ℝ) :
    (step s dt).obstacles = s.obstacles
      ∧ (step s dt).gamma_target = s.gamma_target
      ∧ (step s dt).gamma_velocity = s.gamma_velocity
      ∧ (step s dt).use_gamma_target = s.use_gamma_target
      ∧ (step s dt).show_beta_agents = s.show_beta_agents
      ∧ (step s dt).show_connections = s.show_connections
      ∧ (step s dt).running = s.running
      ∧ (step s dt).params = s.params
      ∧ (step s dt).agents.length = s.agents.length := by
  refine ⟨rfl, rfl, rfl, rfl, rfl, rfl, rfl, rfl, ?_⟩
  rw [step_agents, List.length_map, accel_map_length]

/-! ## C22: `set_target` -/

/-- C22: for every state and position `p`, `set_target p` yields a state whose
stored target is `p` and whose navigation-enabled flag is true, with agents,
obstacles, virtual agents, target velocity, display flags, run state and
parameters unchanged. -/
theorem set_target_frame (s : FlockSimulation) (p : Vector2) :
    (set_target s p).gamma_target = p
      ∧ (set_target s p).use_gamma_target = true
      ∧ (set_target s p).agents = s.agents
      ∧ (set_target s p).obstacles = s.obstacles
      ∧ (set_target s p).beta_agents = s.beta_agents
      ∧ (set_target s p).gamma_velocity = s.gamma_velocity
      ∧ (set_target s p).show_beta_agents = s.show_beta_agents
      ∧ (set_target s p).show_connections = s.show_connections
      ∧ (set_target s p).running = s.running
      ∧ (set_target s p).params = s.params :=
  ⟨rfl, rfl, rfl, rfl, rfl, rfl, rfl, rfl, rfl, rfl⟩

/-! ## C24, C25: degenerate disc projection and wall projection -/

theorem project_to_obstacle_disc (a : Agent) (o : Obstacle) (hdisc : o.is_wall = false) :
    project_to_obstacle a o
      = project_to_disc_with (o.radius / (o.position - a.position).length) a o := by
  unfold project_to_obstacle project_to_disc_with
  simp only [hdisc, Bool.false_eq_true, if_false]

/-- C24: for every agent and disc obstacle whose centre is at distance
`D ≤ 0.1` from the agent (so in particular `D < 0.1` and `D = 0`),
`project_to_obstacle` returns the fixed point `obstacle.position + (radius, 0)`
with zero velocity; the disc branch gives this same result whatever value
stands for the quotient `radius / D`, so the quotient does not influence it. -/
theorem disc_projection_degenerate (a : Agent) (o : Obstacle) (hdisc : o.is_wall = false)
    (hD : (o.position - a.position).length ≤ 0.1) :
    project_to_obstacle a o = ⟨o.position + ⟨o.radius, 0⟩, ⟨0, 0⟩⟩
      ∧ ∀ mu : ℝ, project_to_disc_with mu a o = ⟨o.position + ⟨o.radius, 0⟩, ⟨0, 0⟩⟩ := by
  have hmu : ∀ mu : ℝ, project_to_disc_with mu a o = ⟨o.position + ⟨o.radius, 0⟩, ⟨0, 0⟩⟩ := by
    intro mu
    unfold project_to_disc_with
    simp only
    rw [if_neg (not_lt.mpr hD)]
  exact ⟨by rw [project_to_obstacle_disc a o hdisc]; exact hmu _, hmu⟩

/-- C24, instance: the agent standing exactly at the centre of a disc of
radius 15 (`D = 0`). -/
theorem disc_projection_degenerate_witness :
    project_to_obstacle origin_agent centred_disc
        = ⟨centred_disc.position + ⟨centred_disc.radius, 0⟩, ⟨0, 0⟩⟩
      ∧ ∀ mu : ℝ, project_to_disc_with mu origin_agent centred_disc
          = ⟨centred_disc.position + ⟨centred_disc.radius, 0⟩, ⟨0, 0⟩⟩ :=
  disc_projection_degenerate origin_agent centred_disc rfl
    (by
      show Vector2.length (⟨0, 0⟩ - ⟨0, 0⟩) ≤ 0.1
      norm_num [Vector2.length_axis])

/-- C25: for every agent (position `q`, velocity `v`) and wall obstacle with
reference point `w`: if `|w.x - q.x| < |w.y - q.y|` the virtual agent is at
`(q.x, w.y)` with velocity `(v.x, 0)`, otherwise it is at `(w.x, q.y)` with
velocity `(0, v.y)`; in both cases the virtual agent's velocity is orthogonal
to the displacement from the agent to the virtual agent. -/
theorem wall_projection (a : Agent) (o : Obstacle) (hwall : o.is_wall = true) :
    (|o.position.x - a.position.x| < |o.position.y - a.position.y| →
        project_to_obstacle a o = ⟨⟨a.position.x, o.position.y⟩, ⟨a.velocity.x, 0⟩⟩)
      ∧ (¬ |o.position.x - a.position.x| < |o.position.y - a.position.y| →
        project_to_obstacle a o = ⟨⟨o.position.x, a.position.y⟩, ⟨0, a.velocity.y⟩⟩)
      ∧ (project_to_obstacle a o).velocity.dot
          ((project_to_obstacle a o).position - a.position) = 0 := by
  have h1 : |o.position.x - a.position.x| < |o.position.y - a.position.y| →
      project_to_obstacle a o = ⟨⟨a.position.x, o.position.y⟩, ⟨a.velocity.x, 0⟩⟩ := by
    intro h
    unfold project_to_obstacle
    rw [if_pos hwall, if_pos h]
  have h2 : ¬ |o.position.x - a.position.x| < |o.position.y - a.position.y| →
      project_to_obstacle a o = ⟨⟨o.position.x, a.position.y⟩, ⟨0, a.velocity.y⟩⟩ := by
    intro h
    unfold project_to_obstacle
    rw [if_pos hwall, if_neg h]
  refine ⟨h1, h2, ?_⟩
  by_cases h : |o.position.x - a.position.x| < |o.position.y - a.position.y|
  · rw [h1 h]
    simp [Vector2.dot]
  · rw [h2 h]
    simp [Vector2.dot]

/-- C25, instance: the agent at the origin with velocity `(1, 1)` against a
wall with reference point `(3, 10)` and a wall with reference point
`(10, 3)`. -/
theorem wall_projection_witness :
    project_to_obstacle origin_agent upper_wall = ⟨⟨0, 10⟩, ⟨1, 0⟩⟩
      ∧ project_to_obstacle origin_agent right_wall = ⟨⟨10, 0⟩, ⟨0, 1⟩⟩ :=
  ⟨(wall_projection origin_agent upper_wall rfl).1
      (by
        show |(3 : ℝ) - 0| < |(10 : ℝ) - 0|
        norm_num),
    (wall_projection origin_agent right_wall rfl).2.1
      (by
        show ¬ |(10 : ℝ) - 0| < |(3 : ℝ) - 0|
        norm_num)⟩

/-! ## C28: virtual agents beyond the beta set-point distance -/

theorem default_epsilon_pos : 0 < default_params.epsilon := by
  show (0 : ℝ) < 0.1
  norm_num

theorem sigma_norm_mono (p : Parameters) (hε : 0 < p.epsilon) (z1 z2 : Vector2)
    (h : z1.length ≤ z2.length) : sigma_norm p z1 ≤ sigma_norm p z2 := by
  rcases lt_or_eq_of_le h with hlt | heq
  · exact (sigma_norm_strict_mono p hε z1 z2 hlt).le
  · exact (sigma_norm_congr p z1 z2 heq).le

theorem sigma_norm_pos (p : Parameters) (hε : 0 < p.epsilon) (z : Vector2) (h : 0 < z.length) :
    0 < sigma_norm p z := by
  have h0 : sigma_norm p ⟨0, 0⟩ = 0 := by
    unfold sigma_norm
    simp [length_zero_vec]
  rw [← h0]
  exact sigma_norm_strict_mono p hε _ _ (by rw [length_zero_vec]; exact h)

theorem bump_function_zero_of_one_le (z h : ℝ) (hh : h ≤ 1) (hz : 1 ≤ z) :
    bump_function z h = 0 := by
  unfold bump_function
  rw [if_neg (not_lt.mpr (le_trans hh hz)), if_neg (not_lt.mpr hz)]

theorem d_beta_length :
    Vector2.length ⟨default_params.desired_distance * 0.6, 0⟩
      = default_params.desired_distance * 0.6 := by
  rw [Vector2.length_axis]
  show |(7 : ℝ) * 0.6| = 7 * 0.6
  exact abs_of_nonneg (by norm_num)

theorem beta_bump_zero (z : Vector2)
    (h : default_params.desired_distance * 0.6 ≤ z.length) :
    bump_function
      (sigma_norm default_params z
        / sigma_norm default_params ⟨default_params.desired_distance * 0.6, 0⟩)
      default_params.h_beta = 0 := by
  have hpos : 0 < sigma_norm default_params ⟨default_params.desired_distance * 0.6, 0⟩ := by
    apply sigma_norm_pos _ default_epsilon_pos
    rw [d_beta_length]
    show (0 : ℝ) < 7 * 0.6
    norm_num
  have hle : sigma_norm default_params ⟨default_params.desired_distance * 0.6, 0⟩
      ≤ sigma_norm default_params z :=
    sigma_norm_mono _ default_epsilon_pos _ _ (by rw [d_beta_length]; exact h)
  apply bump_function_zero_of_one_le
  · show (0.8 : ℝ) ≤ 1
    norm_num
  · rw [le_div_iff₀ hpos, one_mul]
    exact hle

theorem beta_loop_append (p : Parameters) (agent : Agent) :
    ∀ (l1 l2 : List BetaAgent) (acc : Vector2 × Vector2),
      beta_loop p agent (l1 ++ l2) acc = beta_loop p agent l2 (beta_loop p agent l1 acc) := by
  intro l1
  induction l1 with
  | nil => intro l2 acc; rfl
  | cons b rest ih =>
    intro l2 acc
    simp only [List.cons_append, beta_loop]
    split_ifs <;> exact ih _ _

/-- C28: with the source parameters, a virtual agent at Euclidean distance at
least `0.6 * desired_distance` (4.2) from an agent contributes exactly zero to
that agent's `compute_beta_force`: `phi_beta` and `beta_adjacency` both vanish
there, and removing it from the virtual-agent list does not change the force,
whether or not it passes the range gate `distance < obstacle_range`. -/
theorem far_virtual_agent_contributes_nothing (a : Agent) (b : BetaAgent)
    (h : default_params.desired_distance * 0.6 ≤ (b.position - a.position).length) :
    phi_beta default_params (sigma_norm default_params (b.position - a.position)) = 0
      ∧ beta_adjacency default_params a.position b.position = 0
      ∧ ∀ before after : List BetaAgent,
          compute_beta_force default_params (before ++ b :: after) a
            = compute_beta_force default_params (before ++ after) a := by
  have hb := beta_bump_zero _ h
  have hphi : phi_beta default_params (sigma_norm default_params (b.position - a.position))
      = 0 := by
    unfold phi_beta
    simp only [hb, zero_mul]
  have hadj : beta_adjacency default_params a.position b.position = 0 := by
    unfold beta_adjacency
    exact hb
  refine ⟨hphi, hadj, ?_⟩
  intro before after
  unfold compute_beta_force
  rw [beta_loop_append, beta_loop_append]
  have hstep : ∀ acc : Vector2 × Vector2,
      beta_loop default_params a (b :: after) acc = beta_loop default_params a after acc := by
    intro acc
    simp only [beta_loop, hphi, hadj]
    split_ifs
    · simp
    · rfl
  rw [hstep]

/-- C28, instance: the agent at the origin and a virtual agent 5 units away,
inside `obstacle_range = 5.2`. -/
theorem far_virtual_agent_contributes_nothing_witness :
    phi_beta default_params
        (sigma_norm default_params (mid_range_beta.position - origin_agent.position)) = 0
      ∧ beta_adjacency default_params origin_agent.position mid_range_beta.position = 0
      ∧ ∀ before after : List BetaAgent,
          compute_beta_force default_params (before ++ mid_range_beta :: after) origin_agent
            = compute_beta_force default_params (before ++ after) origin_agent :=
  far_virtual_agent_contributes_nothing origin_agent mid_range_beta
    (by
      show (7 : ℝ) * 0.6 ≤ Vector2.length (⟨5, 0⟩ - ⟨0, 0⟩)
      norm_num [Vector2.length_axis])

/-! ## C26: direction of the alpha force between two agents -/

/-- Contribution of the agent `b` to the alpha force on the agent `a`, as the
loop body of `compute_alpha_force` adds it. -/
theorem alpha_force_pair (p : Parameters) (a b : Agent)
    (hr : (b.position - a.position).length < p.interaction_range
      ∧ (b.position - a.position).length > 0.1) :
    compute_alpha_force p [a, b] 0 a
        = (sigma_epsilon p (b.position - a.position)
            * phi_alpha p (sigma_norm p (b.position - a.position))) * p.c1_alpha
          + ((b.velocity - a.velocity) * alpha_adjacency p a.position b.position) * p.c2_alpha
      ∧ compute_alpha_force p [b, a] 1 a
        = (sigma_epsilon p (b.position - a.position)
            * phi_alpha p (sigma_norm p (b.position - a.position))) * p.c1_alpha
          + ((b.velocity - a.velocity) * alpha_adjacency p a.position b.position) * p.c2_alpha := by
  constructor
  · unfold compute_alpha_force
    simp [alpha_loop, hr.1, hr.2]
  · unfold compute_alpha_force
    simp [alpha_loop, hr.1, hr.2]

theorem alpha_force_pair_equal_velocity (a b : Agent) (hv : a.velocity = b.velocity)
    (h1 : (0.1 : ℝ) < (b.position - a.position).length)
    (h2 : (b.position - a.position).length < default_params.interaction_range) :
    compute_alpha_force default_params [a, b] 0 a
        = (b.position - a.position)
          * (1 / Real.sqrt (1 + default_params.epsilon * (b.position - a.position).length
              * (b.position - a.position).length)
            * phi_alpha default_params (sigma_norm default_params (b.position - a.position))
            * default_params.c1_alpha)
      ∧ compute_alpha_force default_params [b, a] 1 a
        = (b.position - a.position)
          * (1 / Real.sqrt (1 + default_params.epsilon * (b.position - a.position).length
              * (b.position - a.position).length)
            * phi_alpha default_params (sigma_norm default_params (b.position - a.position))
            * default_params.c1_alpha) := by
  have hlarge : ¬ (b.position - a.position).length < 1e-10 := by
    intro h3
    have : (0.1 : ℝ) < 1e-10 := lt_trans h1 h3
    norm_num at this
  have hp := alpha_force_pair default_params a b ⟨h2, h1⟩
  rw [sigma_epsilon_large _ _ hlarge, hv] at hp
  constructor
  · rw [hp.1]
    ext <;> simp <;> ring
  · rw [hp.2]
    ext <;> simp <;> ring

theorem bump_positive_in_range (z : Vector2)
    (h : z.length < default_params.interaction_range) :
    0 < bump_function
      (sigma_norm default_params z
        / sigma_norm default_params ⟨default_params.interaction_range, 0⟩)
      default_params.h_alpha := by
  have hlen : Vector2.length ⟨default_params.interaction_range, 0⟩
      = default_params.interaction_range := by
    rw [Vector2.length_axis]
    show |(8.4 : ℝ)| = 8.4
    exact abs_of_nonneg (by norm_num)
  have hlt : sigma_norm default_params z
      < sigma_norm default_params ⟨default_params.interaction_range, 0⟩ :=
    sigma_norm_strict_mono _ default_epsilon_pos _ _ (by rw [hlen]; exact h)
  apply bump_function_pos
  rw [div_lt_one (by linarith [r_alpha_bounds.1])]
  exact hlt

theorem desired_length :
    Vector2.length ⟨default_params.desired_distance, 0⟩ = default_params.desired_distance := by
  rw [Vector2.length_axis]
  show |(7 : ℝ)| = 7
  exact abs_of_nonneg (by norm_num)

/-- C26: with the source parameters, for two agents `a`, `b` with equal
velocities at Euclidean distance `D` (whichever of the two comes first in the
agent vector): if `desired_distance < D < interaction_range` the alpha force on
`a` is a strictly positive multiple of `b.position - a.position`, and if
`0.1 < D < desired_distance` it is a strictly negative multiple of it. -/
theorem pair_alpha_force_direction (a b : Agent) (hv : a.velocity = b.velocity) :
    (default_params.desired_distance < (b.position - a.position).length →
        (b.position - a.position).length < default_params.interaction_range →
        ∃ c : ℝ, 0 < c
          ∧ compute_alpha_force default_params [a, b] 0 a = (b.position - a.position) * c
          ∧ compute_alpha_force default_params [b, a] 1 a = (b.position - a.position) * c)
      ∧ (0.1 < (b.position - a.position).length →
        (b.position - a.position).length < default_params.desired_distance →
        ∃ c : ℝ, c < 0
          ∧ compute_alpha_force default_params [a, b] 0 a = (b.position - a.position) * c
          ∧ compute_alpha_force default_params [b, a] 1 a = (b.position - a.position) * c) := by
  have hdiv := sigma_divisor_pos default_params default_epsilon_pos.le (b.position - a.position)
  have hc1 : 0 < default_params.c1_alpha := by
    show (0 : ℝ) < 8
    norm_num
  have hdr : default_params.desired_distance < default_params.interaction_range := by
    show (7 : ℝ) < 8.4
    norm_num
  have hd01 : (0.1 : ℝ) < default_params.desired_distance := by
    show (0.1 : ℝ) < 7
    norm_num
  constructor
  · intro h1 h2
    have hphi : 0 < phi_alpha default_params
        (sigma_norm default_params (b.position - a.position)) := by
      apply phi_alpha_pos_above
      · exact sigma_norm_strict_mono _ default_epsilon_pos _ _ (by rw [desired_length]; exact h1)
      · exact bump_positive_in_range _ h2
    have hp := alpha_force_pair_equal_velocity a b hv (lt_trans hd01 h1) h2
    exact ⟨_, mul_pos (mul_pos (one_div_pos.mpr hdiv) hphi) hc1, hp.1, hp.2⟩
  · intro h1 h2
    have hphi : phi_alpha default_params
        (sigma_norm default_params (b.position - a.position)) < 0 := by
      apply phi_alpha_neg_below
      · exact sigma_norm_strict_mono _ default_epsilon_pos _ _ (by rw [desired_length]; exact h2)
      · exact bump_positive_in_range _ (lt_trans h2 hdr)
    have hp := alpha_force_pair_equal_velocity a b hv h1 (lt_trans h2 hdr)
    refine ⟨_, ?_, hp.1, hp.2⟩
    exact mul_neg_of_neg_of_pos (mul_neg_of_pos_of_neg (one_div_pos.mpr hdiv) hphi) hc1

/-- C26, instance: the agent at the origin with a neighbour 8 units away
(attraction) and with a neighbour 5 units away (repulsion), all with velocity
`(1, 1)`. -/
theorem pair_alpha_force_direction_witness :
    (∃ c : ℝ, 0 < c
        ∧ compute_alpha_force default_params [origin_agent, loose_neighbour] 0 origin_agent
          = (loose_neighbour.position - origin_agent.position) * c
        ∧ compute_alpha_force default_params [loose_neighbour, origin_agent] 1 origin_agent
          = (loose_neighbour.position - origin_agent.position) * c)
      ∧ (∃ c : ℝ, c < 0
        ∧ compute_alpha_force default_params [origin_agent, close_neighbour] 0 origin_agent
          = (close_neighbour.position - origin_agent.position) * c
        ∧ compute_alpha_force default_params [close_neighbour, origin_agent] 1 origin_agent
          = (close_neighbour.position - origin_agent.position) * c) :=
  ⟨(pair_alpha_force_direction origin_agent loose_neighbour rfl).1
      (by
        show (7 : ℝ) < Vector2.length (⟨8, 0⟩ - ⟨0, 0⟩)
        norm_num [Vector2.length_axis])
      (by
        show Vector2.length (⟨8, 0⟩ - ⟨0, 0⟩) < (8.4 : ℝ)
        norm_num [Vector2.length_axis]),
    (pair_alpha_force_direction origin_agent close_neighbour rfl).2
      (by
        show (0.1 : ℝ) < Vector2.length (⟨5, 0⟩ - ⟨0, 0⟩)
        norm_num [Vector2.length_axis])
      (by
        show Vector2.length (⟨5, 0⟩ - ⟨0, 0⟩) < (7 : ℝ)
        norm_num [Vector2.length_axis])⟩

/-! ## C27: antisymmetry of the pairwise alpha interaction -/

theorem alpha_adjacency_comm (p : Parameters) (q_i q_j : Vector2) :
    alpha_adjacency p q_i q_j = alpha_adjacency p q_j q_i := by
  unfold alpha_adjacency
  rw [sigma_norm_congr p (q_j - q_i) (q_i - q_j) (Vector2.length_sub_comm _ _)]

theorem sigma_epsilon_swap (p : Parameters) (u v : Vector2) :
    sigma_epsilon p (u - v) + sigma_epsilon p (v - u) = ⟨0, 0⟩ := by
  have hl := Vector2.length_sub_comm u v
  by_cases h : (u - v).length < 1e-10
  · rw [sigma_epsilon_small p _ h, sigma_epsilon_small p _ (by rw [← hl]; exact h)]
    simp
  · rw [sigma_epsilon_large p _ h, sigma_epsilon_large p _ (by rw [← hl]; exact h), ← hl]
    ext <;> simp <;> ring

theorem pair_force_self (p : Parameters) (a b : Agent) (h : b.position = a.position) :
    pair_force p a b = ⟨0, 0⟩ := by
  unfold pair_force
  rw [h, Vector2.sub_self_vec, length_zero_vec]
  rw [if_neg]
  intro hc
  have := hc.2
  norm_num at this

theorem pair_force_antisymm (p : Parameters) (a b : Agent) :
    pair_force p a b + pair_force p b a = ⟨0, 0⟩ := by
  have hl := Vector2.length_sub_comm b.position a.position
  have hs := sigma_epsilon_swap p b.position a.position
  have hsx := congrArg Vector2.x hs
  have hsy := congrArg Vector2.y hs
  simp only [Vector2.add_x, Vector2.add_y] at hsx hsy
  unfold pair_force
  rw [← hl, alpha_adjacency_comm p b.position a.position,
    sigma_norm_congr p (a.position - b.position) (b.position - a.position) hl.symm]
  split_ifs
  · ext
    · simp only [Vector2.add_x, Vector2.mul_x, Vector2.sub_x]
      linear_combination
        (phi_alpha p (sigma_norm p (b.position - a.position)) * p.c1_alpha) * hsx
    · simp only [Vector2.add_y, Vector2.mul_y, Vector2.sub_y]
      linear_combination
        (phi_alpha p (sigma_norm p (b.position - a.position)) * p.c1_alpha) * hsy
  · simp

/-- The loop of `compute_alpha_force` adds up the pair contributions: stated
for one coordinate `π` of the weighted accumulators.  The skipped entry (the
agent itself) would contribute nothing, its distance being `0`. -/
theorem alpha_loop_sum (p : Parameters) (π : Vector2 → ℝ)
    (hadd : ∀ u v : Vector2, π (u + v) = π u + π v)
    (hmul : ∀ (u : Vector2) (c : ℝ), π (u * c) = π u * c)
    (hzero : π ⟨0, 0⟩ = 0) (i : ℕ) (a : Agent) :
    ∀ (l : List Agent) (j : ℕ) (acc : Vector2 × Vector2),
      (∀ k b, j + k = i → l[k]? = some b → b.position = a.position) →
      π (alpha_loop p i a l j acc).1 * p.c1_alpha + π (alpha_loop p i a l j acc).2 * p.c2_alpha
        = π acc.1 * p.c1_alpha + π acc.2 * p.c2_alpha
          + (l.map (fun b => π (pair_force p a b))).sum := by
  intro l
  induction l with
  | nil => intro j acc _; simp [alpha_loop]
  | cons b rest ih =>
    intro j acc hself
    have hrest : ∀ k c, j + 1 + k = i → rest[k]? = some c → c.position = a.position := by
      intro k c hk hc
      exact hself (k + 1) c (by omega) (by simpa using hc)
    simp only [alpha_loop, List.map_cons, List.sum_cons]
    split_ifs with h1 h2
    · rw [ih (j + 1) acc hrest,
        pair_force_self p a b (hself 0 b (by simpa using h1) (by simp)), hzero]
      ring
    · rw [ih (j + 1) _ hrest]
      unfold pair_force
      rw [if_pos h2]
      simp only [hadd, hmul]
      ring
    · rw [ih (j + 1) acc hrest]
      unfold pair_force
      rw [if_neg h2, hzero]
      ring

theorem compute_alpha_force_sum (p : Parameters) (π : Vector2 → ℝ)
    (hadd : ∀ u v : Vector2, π (u + v) = π u + π v)
    (hmul : ∀ (u : Vector2) (c : ℝ), π (u * c) = π u * c)
    (hzero : π ⟨0, 0⟩ = 0) (l : List Agent) (i : ℕ) (a : Agent) (hi : l[i]? = some a) :
    π (compute_alpha_force p l i a) = (l.map (fun b => π (pair_force p a b))).sum := by
  unfold compute_alpha_force
  simp only [hadd, hmul]
  rw [alpha_loop_sum p π hadd hmul hzero i a l 0 _ ?_]
  · simp [hzero]
  · intro k b hk hb
    rw [zero_add] at hk
    rw [hk, hi] at hb
    rw [Option.some.inj hb]

theorem antisymm_row (g : Agent → Agent → ℝ) (hg : ∀ a b, g a b + g b a = 0) (c : Agent) :
    ∀ l : List Agent, (l.map (fun a => g a c)).sum = -(l.map (fun b => g c b)).sum := by
  intro l
  induction l with
  | nil => simp
  | cons a rest ih =>
    simp only [List.map_cons, List.sum_cons, ih]
    linarith [hg a c]

theorem antisymm_double_sum (g : Agent → Agent → ℝ) (hg : ∀ a b, g a b + g b a = 0) :
    ∀ l : List Agent, (l.map (fun a => (l.map (fun b => g a b)).sum)).sum = 0 := by
  intro l
  induction l with
  | nil => simp
  | cons c rest ih =>
    have hcc : g c c = 0 := by linarith [hg c c]
    simp only [List.map_cons, List.sum_cons, List.sum_map_add, ih, antisymm_row g hg c rest, hcc]
    ring

theorem alpha_forces_cancel (p : Parameters) (π : Vector2 → ℝ)
    (hadd : ∀ u v : Vector2, π (u + v) = π u + π v)
    (hmul : ∀ (u : Vector2) (c : ℝ), π (u * c) = π u * c)
    (hzero : π ⟨0, 0⟩ = 0) (l : List Agent) :
    ∑ i : Fin l.length, π (compute_alpha_force p l i.1 (l.get i)) = 0 := by
  have h1 : ∀ i : Fin l.length, π (compute_alpha_force p l i.1 (l.get i))
      = (fun a => (l.map (fun b => π (pair_force p a b))).sum) l[i.1] := by
    intro i
    exact compute_alpha_force_sum p π hadd hmul hzero l i.1 (l.get i)
      (List.getElem?_eq_getElem i.2)
  rw [Finset.sum_congr rfl (fun i _ => h1 i)]
  refine (Fin.sum_univ_get' l (fun a => (l.map (fun b => π (pair_force p a b))).sum)).trans ?_
  apply antisymm_double_sum (fun a b => π (pair_force p a b))
  intro a b
  rw [← hadd, pair_force_antisymm, hzero]

theorem alpha_force_two_agents (p : Parameters) (a b : Agent) :
    compute_alpha_force p [a, b] 0 a = pair_force p a b
      ∧ compute_alpha_force p [a, b] 1 b = pair_force p b a := by
  have hx : ∀ u v : Vector2, (u + v).x = u.x + v.x := fun _ _ => rfl
  have hy : ∀ u v : Vector2, (u + v).y = u.y + v.y := fun _ _ => rfl
  have hmx : ∀ (u : Vector2) (c : ℝ), (u * c).x = u.x * c := fun _ _ => rfl
  have hmy : ∀ (u : Vector2) (c : ℝ), (u * c).y = u.y * c := fun _ _ => rfl
  have haa := pair_force_self p a a rfl
  have hbb := pair_force_self p b b rfl
  constructor
  · ext
    · rw [compute_alpha_force_sum p Vector2.x hx hmx rfl [a, b] 0 a rfl]
      simp [haa]
    · rw [compute_alpha_force_sum p Vector2.y hy hmy rfl [a, b] 0 a rfl]
      simp [haa]
  · ext
    · rw [compute_alpha_force_sum p Vector2.x hx hmx rfl [a, b] 1 b rfl]
      simp [hbb]
    · rw [compute_alpha_force_sum p Vector2.y hy hmy rfl [a, b] 1 b rfl]
      simp [hbb]

/-- C27: the pairwise alpha interaction is antisymmetric.  `alpha_adjacency`
is symmetric in its two positions; in a two-agent state the alpha force on the
first agent is the contribution `pair_force` of the second and conversely, and
the two contributions are opposite; in any state the alpha forces of all
agents sum to the zero vector (both coordinates of the sum are 0). -/
theorem alpha_interaction_antisymmetric (p : Parameters) :
    (∀ q_i q_j : Vector2, alpha_adjacency p q_i q_j = alpha_adjacency p q_j q_i)
      ∧ (∀ a b : Agent,
          compute_alpha_force p [a, b] 0 a = pair_force p a b
            ∧ compute_alpha_force p [a, b] 1 b = pair_force p b a
            ∧ compute_alpha_force p [a, b] 0 a + compute_alpha_force p [a, b] 1 b = ⟨0, 0⟩)
      ∧ (∀ agents : List Agent,
          ∑ i : Fin agents.length, (compute_alpha_force p agents i.1 (agents.get i)).x = 0
            ∧ ∑ i : Fin agents.length,
                (compute_alpha_force p agents i.1 (agents.get i)).y = 0) := by
  refine ⟨alpha_adjacency_comm p, ?_, ?_⟩
  · intro a b
    have h := alpha_force_two_agents p a b
    refine ⟨h.1, h.2, ?_⟩
    rw [h.1, h.2]
    exact pair_force_antisymm p a b
  · intro agents
    exact ⟨alpha_forces_cancel p Vector2.x (fun _ _ => rfl) (fun _ _ => rfl) rfl agents,
      alpha_forces_cancel p Vector2.y (fun _ _ => rfl) (fun _ _ => rfl) rfl agents⟩

/-! ## C23: `add_obstacle` and the kind of the obstacles -/

theorem fresh_state_constructed : constructed fresh_state := by
  have hlen : fresh_state.agents.length = 1000 := by
    show (List.replicate 1000 (⟨⟨0, 0⟩, ⟨0, 0⟩, ⟨0, 0⟩⟩ : Agent)).length = 1000
    rw [List.length_replicate]
  refine ⟨hlen, ?_, rfl, rfl, rfl, rfl, rfl, rfl, rfl, rfl, rfl⟩
  intro a ha
  have e : a = ⟨⟨0, 0⟩, ⟨0, 0⟩, ⟨0, 0⟩⟩ :=
    List.eq_of_mem_replicate (show a ∈ List.replicate 1000 _ from ha)
  subst e
  refine ⟨by norm_num, by norm_num, ⟨0, by norm_num⟩, ⟨0, by norm_num⟩, rfl⟩

theorem reachable_obstacles_are_discs (s : FlockSimulation) (h : Reachable s) :
    ∀ o ∈ s.obstacles, o.is_wall = false := by
  induction h with
  | fresh s hs =>
    intro o ho
    rw [hs.2.2.1] at ho
    simp at ho
  | step s dt _ ih => exact ih
  | add_obstacle s position radius _ ih =>
    intro o ho
    simp only [add_obstacle, List.mem_append, List.mem_singleton] at ho
    rcases ho with ho | ho
    · exact ih o ho
    · rw [ho]
  | set_target s target _ ih => exact ih
  | clear_obstacles s _ ih =>
    intro o ho
    simp [clear_obstacles] at ho
  | toggle_beta_display s _ ih => exact ih
  | remove_target s _ ih => exact ih
  | enable_target s _ ih => exact ih
  | toggle_connections s _ ih => exact ih
  | start s _ ih => exact ih
  | stop s _ ih => exact ih

/-- C23: `add_obstacle p r` yields the old obstacle list followed by exactly
one new obstacle with position `p`, radius `r` and kind disc, and leaves every
other member unchanged; consequently every obstacle of every state reachable
from a freshly constructed simulation through the public member functions is
a disc. -/
theorem add_obstacle_appends_disc :
    (∀ (s : FlockSimulation) (p : Vector2) (r : ℝ),
        (∃ o : Obstacle, (add_obstacle s p r).obstacles = s.obstacles ++ [o]
            ∧ o.position = p ∧ o.radius = r ∧ o.is_wall = false)
          ∧ (add_obstacle s p r).agents = s.agents
          ∧ (add_obstacle s p r).beta_agents = s.beta_agents
          ∧ (add_obstacle s p r).gamma_target = s.gamma_target
          ∧ (add_obstacle s p r).gamma_velocity = s.gamma_velocity
          ∧ (add_obstacle s p r).use_gamma_target = s.use_gamma_target
          ∧ (add_obstacle s p r).show_beta_agents = s.show_beta_agents
          ∧ (add_obstacle s p r).show_connections = s.show_connections
          ∧ (add_obstacle s p r).running = s.running
          ∧ (add_obstacle s p r).params = s.params)
      ∧ (∀ s : FlockSimulation, Reachable s → ∀ o ∈ s.obstacles, o.is_wall = false) :=
  ⟨fun _ _ _ => ⟨⟨_, rfl, rfl, rfl, rfl⟩, rfl, rfl, rfl, rfl, rfl, rfl, rfl, rfl, rfl⟩,
    reachable_obstacles_are_discs⟩

/-- C23, instance: a fresh simulation that is started, stepped once and given
two obstacles. -/
theorem add_obstacle_appends_disc_witness :
    ∀ o ∈ (add_obstacle (add_obstacle (step (start fresh_state) 0.1) ⟨20, 30⟩ 15)
        ⟨-40, 5⟩ 12).obstacles, o.is_wall = false :=
  add_obstacle_appends_disc.2 _
    (Reachable.add_obstacle _ _ _
      (Reachable.add_obstacle _ _ _
        (Reachable.step _ _ (Reachable.start _ (Reachable.fresh _ fresh_state_constructed)))))

/-! ## C21: what the result of `step` depends on -/

theorem alpha_loop_congr_agent (p : Parameters) (i : ℕ) (a1 a2 : Agent)
    (hp : a1.position = a2.position) (hv : a1.velocity = a2.velocity) :
    ∀ (l : List Agent) (j : ℕ) (acc : Vector2 × Vector2),
      alpha_loop p i a1 l j acc = alpha_loop p i a2 l j acc := by
  intro l
  induction l with
  | nil => intro j acc; rfl
  | cons b rest ih =>
    intro j acc
    simp only [alpha_loop, hp, hv]
    split_ifs <;> exact ih _ _

theorem beta_loop_congr_agent (p : Parameters) (a1 a2 : Agent)
    (hp : a1.position = a2.position) (hv : a1.velocity = a2.velocity) :
    ∀ (l : List BetaAgent) (acc : Vector2 × Vector2),
      beta_loop p a1 l acc = beta_loop p a2 l acc := by
  intro l
  induction l with
  | nil => intro acc; rfl
  | cons b rest ih =>
    intro acc
    simp only [beta_loop, hp, hv]
    split_ifs <;> exact ih _

theorem compute_gamma_force_congr (s1 s2 : FlockSimulation) (a1 a2 : Agent)
    (hp : a1.position = a2.position) (hv : a1.velocity = a2.velocity)
    (ht : s1.gamma_target = s2.gamma_target) (htv : s1.gamma_velocity = s2.gamma_velocity)
    (hn : s1.use_gamma_target = s2.use_gamma_target) (hpar : s1.params = s2.params) :
    compute_gamma_force s1 a1 = compute_gamma_force s2 a2 := by
  unfold compute_gamma_force
  rw [hp, hv, ht, htv, hn, hpar]

theorem accelerate_congr (s1 s2 : FlockSimulation) (o1 o2 : List Agent) (k : ℕ)
    (a1 a2 : Agent)
    (hp : a1.position = a2.position) (hv : a1.velocity = a2.velocity)
    (ho : kinematics o1 = kinematics o2) (hb : s1.beta_agents = s2.beta_agents)
    (ht : s1.gamma_target = s2.gamma_target) (htv : s1.gamma_velocity = s2.gamma_velocity)
    (hn : s1.use_gamma_target = s2.use_gamma_target) (hpar : s1.params = s2.params) :
    accelerate s1 o1 k a1 = accelerate s2 o2 k a2 := by
  have hα : compute_alpha_force s1.params o1 k a1 = compute_alpha_force s2.params o2 k a2 := by
    rw [compute_alpha_force_congr s1.params k a1 o1 o2 ho, hpar]
    unfold compute_alpha_force
    rw [alpha_loop_congr_agent s2.params k a1 a2 hp hv]
  have hβ : compute_beta_force s1.params s1.beta_agents a1
      = compute_beta_force s2.params s2.beta_agents a2 := by
    rw [hb, hpar]
    unfold compute_beta_force
    rw [beta_loop_congr_agent s2.params a1 a2 hp hv]
  have hγ := compute_gamma_force_congr s1 s2 a1 a2 hp hv ht htv hn hpar
  unfold accelerate
  rw [hα, hβ, hγ, hp, hv]

theorem accel_map_congr (s1 s2 : FlockSimulation) (o1 o2 : List Agent)
    (ho : kinematics o1 = kinematics o2) (hb : s1.beta_agents = s2.beta_agents)
    (ht : s1.gamma_target = s2.gamma_target) (htv : s1.gamma_velocity = s2.gamma_velocity)
    (hn : s1.use_gamma_target = s2.use_gamma_target) (hpar : s1.params = s2.params) :
    ∀ (l1 l2 : List Agent) (k : ℕ), kinematics l1 = kinematics l2 →
      accel_map s1 o1 k l1 = accel_map s2 o2 k l2 := by
  intro l1
  induction l1 with
  | nil =>
    intro l2 k h
    cases l2 with
    | nil => rfl
    | cons b l2 => simp [kinematics] at h
  | cons a l1 ih =>
    intro l2 k h
    cases l2 with
    | nil => simp [kinematics] at h
    | cons b l2 =>
      simp only [kinematics, List.map_cons, List.cons.injEq, Prod.mk.injEq] at h
      obtain ⟨⟨hp, hv⟩, hrest⟩ := h
      simp only [accel_map]
      rw [accelerate_congr s1 s2 o1 o2 k a b hp hv ho hb ht htv hn hpar, ih l2 (k + 1) hrest]

theorem project_to_obstacle_congr (a1 a2 : Agent) (o : Obstacle)
    (hp : a1.position = a2.position) (hv : a1.velocity = a2.velocity) :
    project_to_obstacle a1 o = project_to_obstacle a2 o := by
  unfold project_to_obstacle
  rw [hp, hv]

theorem agent_projections_congr (p : Parameters) (obstacles : List Obstacle) (a1 a2 : Agent)
    (hp : a1.position = a2.position) (hv : a1.velocity = a2.velocity) :
    agent_projections p obstacles a1 = agent_projections p obstacles a2 := by
  unfold agent_projections
  rw [hp]
  exact List.map_congr_left (fun o _ => project_to_obstacle_congr a1 a2 o hp hv)

theorem flatMap_projections_congr (p : Parameters) (obstacles : List Obstacle) :
    ∀ l1 l2 : List Agent, kinematics l1 = kinematics l2 →
      l1.flatMap (agent_projections p obstacles) = l2.flatMap (agent_projections p obstacles) := by
  intro l1
  induction l1 with
  | nil =>
    intro l2 h
    cases l2 with
    | nil => rfl
    | cons b l2 => simp [kinematics] at h
  | cons a l1 ih =>
    intro l2 h
    cases l2 with
    | nil => simp [kinematics] at h
    | cons b l2 =>
      simp only [kinematics, List.map_cons, List.cons.injEq, Prod.mk.injEq] at h
      obtain ⟨⟨hp, hv⟩, hrest⟩ := h
      simp only [List.flatMap_cons]
      rw [agent_projections_congr p obstacles a b hp hv, ih l2 hrest]

theorem update_beta_agents_congr (s1 s2 : FlockSimulation)
    (hk : kinematics s1.agents = kinematics s2.agents) (ho : s1.obstacles = s2.obstacles)
    (hpar : s1.params = s2.params) :
    (update_beta_agents s1).beta_agents = (update_beta_agents s2).beta_agents := by
  show beta_collect s1.params s1.obstacles [] s1.agents
    = beta_collect s2.params s2.obstacles [] s2.agents
  rw [beta_collect_eq, beta_collect_eq, ho, hpar,
    flatMap_projections_congr s2.params s2.obstacles s1.agents s2.agents hk]

/-- C21: the agents and the virtual-agent list after `step dt` are determined
by the agents' pre-step positions and velocities, the obstacles, the target
(position and velocity), the navigation-enabled flag, the parameters and `dt`:
two states that agree on these produce identical results, whatever their
display flags, run state, stored accelerations and stored virtual agents. -/
theorem step_depends_only_on_physics (s1 s2 : FlockSimulation) (dt : ℝ)
    (hk : s1.agents.map (fun a => (a.position, a.velocity))
      = s2.agents.map (fun a => (a.position, a.velocity)))
    (ho : s1.obstacles = s2.obstacles)
    (ht : s1.gamma_target = s2.gamma_target) (htv : s1.gamma_velocity = s2.gamma_velocity)
    (hn : s1.use_gamma_target = s2.use_gamma_target) (hpar : s1.params = s2.params) :
    (step s1 dt).agents = (step s2 dt).agents
      ∧ (step s1 dt).beta_agents = (step s2 dt).beta_agents := by
  have hb := update_beta_agents_congr s1 s2 hk ho hpar
  refine ⟨?_, hb⟩
  rw [step_agents, step_agents]
  rw [accel_map_congr (update_beta_agents s1) (update_beta_agents s2) s1.agents s2.agents
    hk hb ht htv hn hpar s1.agents s2.agents 0 hk]

/-- C21, instance: `sparse_state` and the same state with both display flags
flipped, the run state changed, other stored accelerations and a stale
virtual agent. -/
theorem step_depends_only_on_physics_witness :
    (step sparse_state 0.1).agents = (step sparse_state_repainted 0.1).agents
      ∧ (step sparse_state 0.1).beta_agents = (step sparse_state_repainted 0.1).beta_agents :=
  step_depends_only_on_physics sparse_state sparse_state_repainted 0.1 rfl rfl rfl rfl rfl rfl

end
